import Mathlib

set_option autoImplicit false

/-!
Verification development for the AttriOS incremental regeneration pipeline.

The Python sources embedded here:
* `src/metagpt/actions/write_code.py` — `WriteCode.write_code`, `WriteCode.run`,
  `WriteCode.get_codes`, `WriteCode.ensure_critical_files`;
* `src/metagpt/actions/design_api.py` — `WriteDesign.run`,
  `WriteDesign._update_system_design`, `WriteDesign._save_data_api_design`,
  `WriteDesign._save_seq_flow`.

External collaborators (document store, generation backend, diagram renderer,
`json.loads`, the tenacity retry decorator, `CodeParser.parse_code`) are not
under `src/`; they are modelled from the spec's interface contracts (§4.4, §6),
with doc comments marking each such model.
-/

namespace AttriOS

/-- JSON values, as produced by Python's `json.loads`.  Numbers are kept as
their raw source text; nothing in the embedded pipeline computes with them. -/
inductive JVal where
  | jnull
  | jbool (b : Bool)
  | jnum (raw : String)
  | jstr (s : String)
  | jarr (items : List JVal)
  | jobj (fields : List (String × JVal))
deriving Repr, Inhabited

/-- Whitespace skipping for the JSON reader. -/
def skipWs : List Char → List Char
  | [] => []
  | c :: cs => if c = ' ' ∨ c = '\n' ∨ c = '\t' ∨ c = '\r' then skipWs cs else c :: cs

/-- Translation of a JSON string escape character. -/
def escChar (c : Char) : Option Char :=
  if c = '"' then some '"'
  else if c = '\\' then some '\\'
  else if c = '/' then some '/'
  else if c = 'n' then some '\n'
  else if c = 't' then some '\t'
  else if c = 'r' then some '\r'
  else if c = 'b' then some (Char.ofNat 8)
  else if c = 'f' then some (Char.ofNat 12)
  else none

/-- Body of a JSON string literal, after the opening quote.  Returns the
decoded string and the input after the closing quote.  `\u` escapes are not
modelled; no document handled by the pipeline uses them. -/
def parseStringBody : List Char → Option (String × List Char)
  | [] => none
  | '"' :: cs => some ("", cs)
  | '\\' :: [] => none
  | '\\' :: e :: cs =>
    match escChar e with
    | none => none
    | some ec => (parseStringBody cs).map (fun p => (String.mk (ec :: p.1.data), p.2))
  | c :: cs => (parseStringBody cs).map (fun p => (String.mk (c :: p.1.data), p.2))

/-- Characters that may occur in a JSON numeral after the first. -/
def isNumChar (c : Char) : Bool :=
  c.isDigit || c = '-' || c = '+' || c = '.' || c = 'e' || c = 'E'

/-- Longest numeral-character run at the head of the input. -/
def spanNum : List Char → List Char × List Char
  | [] => ([], [])
  | c :: cs =>
    if isNumChar c then
      let p := spanNum cs
      (c :: p.1, p.2)
    else ([], c :: cs)

mutual

/-- Recursive-descent JSON value reader (fuel-indexed model of `json.loads`). -/
def parseVal : Nat → List Char → Option (JVal × List Char)
  | 0, _ => none
  | fuel + 1, input =>
    match skipWs input with
    | [] => none
    | '"' :: cs => (parseStringBody cs).map (fun p => (JVal.jstr p.1, p.2))
    | '[' :: cs =>
      match skipWs cs with
      | ']' :: rest => some (JVal.jarr [], rest)
      | cs2 => (parseArrItems fuel cs2).map (fun p => (JVal.jarr p.1, p.2))
    | '{' :: cs =>
      match skipWs cs with
      | '}' :: rest => some (JVal.jobj [], rest)
      | cs2 => (parseObjItems fuel cs2).map (fun p => (JVal.jobj p.1, p.2))
    | 't' :: 'r' :: 'u' :: 'e' :: cs => some (JVal.jbool true, cs)
    | 'f' :: 'a' :: 'l' :: 's' :: 'e' :: cs => some (JVal.jbool false, cs)
    | 'n' :: 'u' :: 'l' :: 'l' :: cs => some (JVal.jnull, cs)
    | c :: cs =>
      if c.isDigit ∨ c = '-' then
        let p := spanNum cs
        some (JVal.jnum (String.mk (c :: p.1)), p.2)
      else none

/-- Comma-separated JSON array items, up to the closing bracket. -/
def parseArrItems : Nat → List Char → Option (List JVal × List Char)
  | 0, _ => none
  | fuel + 1, input =>
    match parseVal fuel input with
    | none => none
    | some (v, rest) =>
      match skipWs rest with
      | ',' :: rest2 =>
        (parseArrItems fuel rest2).map (fun p => (v :: p.1, p.2))
      | ']' :: rest2 => some ([v], rest2)
      | _ => none

/-- Comma-separated JSON object members, up to the closing brace. -/
def parseObjItems : Nat → List Char → Option (List (String × JVal) × List Char)
  | 0, _ => none
  | fuel + 1, input =>
    match skipWs input with
    | '"' :: cs =>
      match parseStringBody cs with
      | none => none
      | some (key, rest) =>
        match skipWs rest with
        | ':' :: rest2 =>
          match parseVal fuel rest2 with
          | none => none
          | some (v, rest3) =>
            match skipWs rest3 with
            | ',' :: rest4 =>
              (parseObjItems fuel rest4).map (fun p => ((key, v) :: p.1, p.2))
            | '}' :: rest4 => some ([(key, v)], rest4)
            | _ => none
        | _ => none
    | _ => none

end

/-- Model of Python's `json.loads`: parse the whole string as one JSON value,
raising (here: returning an error) on malformed input or trailing data. -/
def jsonLoads (s : String) : Except String JVal :=
  match parseVal (2 * s.length + 4) s.data with
  | none => .error "json.decoder.JSONDecodeError"
  | some (v, rest) =>
    if skipWs rest = [] then .ok v else .error "json.decoder.JSONDecodeError: Extra data"

/-- Nonzero mantissa test: a JSON numeral is Python-falsy exactly when every
digit of its mantissa is zero. -/
def mantissaNonzero (raw : String) : Bool :=
  (raw.data.takeWhile (fun c => c ≠ 'e' ∧ c ≠ 'E')).any (fun c => '1' ≤ c ∧ c ≤ '9')

/-- Structural split of a character list at a separator. -/
def splitOnCharAux (sep : Char) : List Char → List (List Char)
  | [] => [[]]
  | c :: cs =>
    if c = sep then [] :: splitOnCharAux sep cs
    else
      match splitOnCharAux sep cs with
      | [] => [[c]]
      | g :: gs => (c :: g) :: gs

/-- Split of a string at a separator character, as in Python's `str.split`. -/
def splitOnChar (sep : Char) (s : String) : List String :=
  (splitOnCharAux sep s.data).map String.mk

/-- Python truthiness of a decoded JSON value (`if not x`, `x or y`). -/
def pyTruthy : JVal → Bool
  | .jnull => false
  | .jbool b => b
  | .jnum raw => mantissaNonzero raw
  | .jstr s => s ≠ ""
  | .jarr items => !items.isEmpty
  | .jobj fields => !fields.isEmpty

/-- Model of `m.get(k1) or m.get(k2)` followed by the `if not x` guard in
`WriteDesign._save_data_api_design` / `_save_seq_flow`: the primary key's value
is used when truthy, else the alternate key's value when truthy, else nothing. -/
def getStructuredField (fields : List (String × JVal)) (k1 k2 : String) : Option JVal :=
  let v : Option JVal :=
    match fields.lookup k1 with
    | some v1 => if pyTruthy v1 then some v1 else fields.lookup k2
    | none => fields.lookup k2
  match v with
  | some v2 => if pyTruthy v2 then some v2 else none
  | none => none

/-- Documents of the pipeline (`metagpt.schema.Document`): a named unit of
content with its workspace root and store-relative path.  Only the fields the
embedded functions read are modelled. -/
structure Document where
  filename : String := ""
  content : String := ""
  root_path : String := ""
  root_relative_path : String := ""
deriving Repr, Inhabited, DecidableEq

/-- Coding context (`metagpt.schema.CodingContext`): the transient aggregate
around one code-generation call. -/
structure CodingContext where
  filename : String := ""
  design_doc : Option Document := none
  task_doc : Option Document := none
  code_doc : Option Document := none
deriving Repr, Inhabited, DecidableEq

/-- Boolean error test on `Except`, the shape of "this call raised". -/
def exceptIsError {ε α : Type} : Except ε α → Bool
  | .error _ => true
  | .ok _ => false

/-- Modelled from the spec: the primary task-list key of the structured task
document (`TASK_LIST.key` from `metagpt/actions/project_management_an.py`,
which is not under `src/`). -/
def TASK_LIST_key : String := "Task list"

/-- Modelled from the spec: the refined task-list key of the structured task
document (`REFINED_TASK_LIST.key`, not under `src/`). -/
def REFINED_TASK_LIST_key : String := "Refined Task list"

/-- Reading of `m.get(key, [])` for a task-list field: the task documents the
pipeline produces store a JSON array of filename strings under the key; an
absent key yields the empty list. -/
def taskListOf (fields : List (String × JVal)) (key : String) : List String :=
  match fields.lookup key with
  | some (.jarr items) =>
    items.filterMap (fun v => match v with | .jstr s => some s | _ => none)
  | _ => []

/-- Labeled context block appended for a sibling file in
`WriteCode.get_codes` (both modes). -/
def codeBlock (filename content : String) : String :=
  "----- " ++ filename ++ "\n```" ++ content ++ "```"

/-- Rewritten-file marker block prepended in incremental mode of
`WriteCode.get_codes`. -/
def rewrittenBlock (filename content : String) : String :=
  "-----Now, " ++ filename ++ " to be rewritten\n```" ++ content ++ "```\n====="

/-- Loop body of the incremental branch of `WriteCode.get_codes`
(write_code.py lines 320-339).  The stores are modelled from the spec's
document-store contract as partial maps from filename to content; a `some`
result doubles as membership in the store's `all_files`. -/
def incStep (srcFiles oldFiles : String → Option String) (exclude : String)
    (codes : List String) (filename : String) : List String :=
  if filename = exclude then
    match oldFiles filename with
    | some oldContent =>
      if filename ≠ "main.py" then rewrittenBlock filename oldContent :: codes else codes
    | none => codes
  else
    match srcFiles filename with
    | some content => codes ++ [codeBlock filename content]
    | none => codes

/-- Block list assembled by the incremental branch of `WriteCode.get_codes`
over the union iteration order `unionList` (the order of
`list(set(src_files) | set(old_files))`, which Python leaves unspecified). -/
def incCodes (srcFiles oldFiles : String → Option String) (exclude : String)
    (unionList : List String) : List String :=
  unionList.foldl (incStep srcFiles oldFiles exclude) []

/-- Loop body of the normal branch of `WriteCode.get_codes`
(write_code.py lines 341-350). -/
def normalStep (srcFiles : String → Option String) (exclude : String)
    (codes : List String) (filename : String) : List String :=
  if filename = exclude then codes
  else
    match srcFiles filename with
    | some content => codes ++ [codeBlock filename content]
    | none => codes

/-- Block list assembled by the normal branch of `WriteCode.get_codes` over
the task list. -/
def normalCodes (srcFiles : String → Option String) (exclude : String)
    (code_filenames : List String) : List String :=
  code_filenames.foldl (normalStep srcFiles exclude) []

set_option linter.unusedVariables false in
/-- Embedding of `WriteCode.get_codes`.  `taskStore` models
`project_repo.docs.task`, kept to mirror the collaborator the call names.
The empty-content branch of the source calls that store's async `get`
WITHOUT `await` (write_code.py line 306 — every sibling `get` in the file is
awaited), so the bound value is a coroutine and the following
`task_doc.content` access at line 307 raises `AttributeError`; the branch is
modelled as exactly that error, and the store's contents are unreachable
from it.  `unionList` is the incremental union iteration order.  Exceptions
raised by the Python code (that `AttributeError`, `json.loads` failures,
`.get` on a non-object payload) are the `.error` results.  The source reads
the refined task-list field in incremental mode but never uses it; being
pure, that read is omitted here. -/
def getCodes (taskDoc : Option Document) (taskStore : String → Option Document)
    (srcFiles oldFiles : String → Option String) (exclude : String)
    (useInc : Bool) (unionList : List String) : Except String String :=
  match taskDoc with
  | none => .ok ""
  | some td =>
    let fetched : Except String Document :=
      if td.content = "" then
        .error "AttributeError: coroutine object has no attribute content"
      else .ok td
    match fetched with
    | .error e => .error e
    | .ok td2 =>
      match jsonLoads td2.content with
      | .error e => .error e
      | .ok (.jobj fields) =>
        if useInc then
          .ok (String.intercalate "\n" (incCodes srcFiles oldFiles exclude unionList))
        else
          .ok (String.intercalate "\n"
            (normalCodes srcFiles exclude (taskListOf fields TASK_LIST_key)))
      | .ok _ => .error "AttributeError: object has no attribute get"

/-- Retry cap of `WriteCode.write_code`: `stop_after_attempt(6)`. -/
def STOP_AFTER_ATTEMPT : Nat := 6

/-- Modelled from the spec (§4.4): the tenacity retry decorator on
`WriteCode.write_code`.  The backend is an attempt-indexed call (attempts are
numbered from 1); each failed attempt is retried until `remaining` attempts
are used up, after which the last error propagates.  Backoff waits are
wall-clock behaviour and are not modelled. -/
def retryRun (call : Nat → Except String String) : Nat → Nat → Except String String
  | _, 0 => .error "RetryError: no attempt allowed"
  | attempt, remaining + 1 =>
    match call attempt with
    | .ok r => .ok r
    | .error e => if remaining = 0 then .error e else retryRun call (attempt + 1) remaining

/-- Modelled from the spec (§4.4): `CodeParser.parse_code`
(`metagpt/utils/common.py`, not under `src/`) — the first fenced code block's
body is extracted, dropping the fence's language line; a response with no
fence is returned whole. -/
def parseCodeModel (text : String) : String :=
  match text.splitOn "```" with
  | _ :: middle :: _ =>
    match middle.splitOn "\n" with
    | _ :: rest => String.intercalate "\n" rest
    | [] => middle
  | _ => text

/-- Anti-pattern substrings scanned for in `WriteCode.write_code`
(write_code.py lines 98-102); their detection is logged only and never alters
the returned code. -/
def nestedPathPatterns : List String := ["frontend/frontend/", "backend/backend/", "/project_name/"]

/-- Embedding of `WriteCode.write_code`: one retried backend call whose
successful raw response goes through fenced-block extraction.  The
anti-pattern scan has no effect on the result and is not threaded through. -/
def writeCodeModel (ask : Nat → Except String String) : Except String String :=
  match retryRun ask 1 STOP_AFTER_ATTEMPT with
  | .error e => .error e
  | .ok rsp => .ok (parseCodeModel rsp)

/-- Tail of `WriteCode.run` (write_code.py lines 267-279): a generation error
is downgraded to empty-content code, a missing code document is replaced by a
fresh one rooted at the source workspace, and the generated code is stored in
the returned coding context. -/
def applyGeneratedCode (cc : CodingContext) (srcWorkspace : String)
    (generated : Except String String) : CodingContext :=
  let code : String := match generated with | .ok c => c | .error _ => ""
  let baseDoc : Document :=
    match cc.code_doc with
    | some d => d
    | none => { filename := cc.filename, root_path := srcWorkspace }
  { cc with code_doc := some { baseDoc with content := code } }

/-- Which branch of `WriteCode.run` produced the code context. -/
inductive ContextSource where
  | bugfix
  | incremental
  | normal
deriving Repr, DecidableEq

/-- Branch selection for the code context in `WriteCode.run`
(write_code.py lines 231-242): a present bugfix-feedback document short
circuits to the existing code document's content; otherwise the incremental or
normal assembly runs.  The assemblies are passed as thunks so that their
results (and failures) only matter on the branch that invokes them. -/
def selectCodeContext (bugFeedback : Option Document) (inc : Bool) (cc : CodingContext)
    (assembleInc assembleNormal : Unit → Except String String) :
    Except String (ContextSource × String) :=
  match bugFeedback with
  | some _ =>
    match cc.code_doc with
    | some d => .ok (.bugfix, d.content)
    | none => .error "AttributeError: NoneType object has no attribute content"
  | none =>
    if inc then (assembleInc ()).map (fun s => (ContextSource.incremental, s))
    else (assembleNormal ()).map (fun s => (ContextSource.normal, s))

/-- Fixed architecture template saved by `WriteDesign.run` for every changed
PRD filename (design_api.py lines 31-86). -/
def REACT_NODE_TEMPLATE : String := "
# React Frontend and Node.js Backend Application Architecture

## Project Structure
```
project_root/
├── frontend/
│   ├── public/
│   │   ├── index.html
│   │   └── favicon.ico
│   ├── src/
│   │   ├── components/
│   │   │   ├── ComponentA.js
│   │   │   └── ComponentB.js
│   │   ├── App.js
│   │   └── index.js
│   └── package.json
├── backend/
│   ├── controllers/
│   │   └── mainController.js
│   ├── routes/
│   │   └── api.js
│   ├── models/
│   │   └── dataModel.js
│   ├── server.js
│   └── package.json
└── README.md
```

## Frontend (React)
- Create actual component files with complete implementations
- Use functional components with React Hooks
- Implement state management appropriate to application complexity
- Build clean component hierarchy with proper props passing
- Apply responsive design principles

## Backend (Node.js/Express)
- Implement complete RESTful API endpoints
- Create actual controller files with full implementations
- Create complete route files with proper endpoints
- Implement error handling middleware
- Include request validation

## Data Flow
1. User interacts with React frontend
2. Frontend makes API calls to backend services
3. Backend processes requests and returns responses
4. Frontend updates UI based on response data

## Development Guidelines
1. Write clean, self-explanatory code without comments
2. Follow single responsibility principle for components
3. Use descriptive variable and function names
4. Only implement requested features - avoid feature creep
5. Ensure proper error handling throughout the application
"

/-- Merge context of the REFINE path: `NEW_REQ_TEMPLATE.format(...)`
(design_api.py lines 88-94). -/
def newReqContext (old_design context : String) : String :=
  "\n### Legacy Content\n" ++ old_design ++ "\n\n### New Requirements\n" ++ context ++ "\n"

/-- Modelled from the spec: primary interface/data-structure key of the
structured design payload (`DATA_STRUCTURES_AND_INTERFACES.key` from
`metagpt/actions/design_api_an.py`, not under `src/`). -/
def DATA_STRUCTURES_AND_INTERFACES_key : String := "Data structures and interfaces"

/-- Modelled from the spec: refined interface/data-structure key
(`REFINED_DATA_STRUCTURES_AND_INTERFACES.key`, not under `src/`). -/
def REFINED_DATA_STRUCTURES_AND_INTERFACES_key : String :=
  "Refined Data Structures and Interfaces"

/-- Modelled from the spec: primary call-flow key (`PROGRAM_CALL_FLOW.key`,
not under `src/`). -/
def PROGRAM_CALL_FLOW_key : String := "Program call flow"

/-- Modelled from the spec: refined call-flow key
(`REFINED_PROGRAM_CALL_FLOW.key`, not under `src/`). -/
def REFINED_PROGRAM_CALL_FLOW_key : String := "Refined Program call flow"

/-- Modelled from the spec: fixed sub-directory for rendered class-view
diagrams (`DATA_API_DESIGN_FILE_REPO` from `metagpt/const.py`, not under
`src/`). -/
def DATA_API_DESIGN_FILE_REPO : String := "resources/data_api_design"

/-- Modelled from the spec: fixed sub-directory for rendered sequence-flow
diagrams (`SEQ_FLOW_FILE_REPO`, not under `src/`). -/
def SEQ_FLOW_FILE_REPO : String := "resources/seq_flow"

/-- Suffix stripping on the last path component, as in Python's
`Path(filename).with_suffix("")`: drop from the last dot of the final
component unless that dot starts the component. -/
def stripLastSuffix (name : String) : String :=
  match splitOnChar '.' name with
  | [] => name
  | [_] => name
  | "" :: [_] => name
  | parts => String.intercalate "." parts.dropLast

/-- Path-aware `with_suffix("")`. -/
def withSuffixEmpty (filename : String) : String :=
  match (splitOnChar '/' filename).reverse with
  | [] => filename
  | last :: revInit => String.intercalate "/" ((stripLastSuffix last :: revInit).reverse)

/-- Collaborators and fixed inputs of one `WriteDesign` run.  The stores are
the spec's document-store contract; `backendNew` and `backendRefine` are the
generation backend's `fill` for the initial and refined design schemas, each
observed through the serialization of its structured result
(`node.instruct_content.model_dump_json()`). -/
structure DesignEnv where
  prdStore : String → Option Document
  designStore : String → Option Document
  backendNew : String → String
  backendRefine : String → String
  prdWorkdir : String
  workdir : String

/-- Observable effects of a `WriteDesign` run: the save log of the design
store (`(filename, content, dependencies)`, most recent first), the number of
generation-backend invocations, and the diagram renders handed to the
renderer collaborator (`(pathname, payload)`, in order). -/
structure DesignState where
  saved : List (String × String × List String) := []
  backendCalls : Nat := 0
  renders : List (String × JVal) := []
deriving Repr, Inhabited

/-- Design-store save (`repo.docs.system_design.save` / `save_doc`), modelled
from the spec's store contract as an always-succeeding append to the save
log. -/
def saveDesign (st : DesignState) (filename content : String) (deps : List String) :
    DesignState :=
  { st with saved := (filename, content, deps) :: st.saved }

/-- Design-store read (`repo.docs.system_design.get`): the most recent save of
this run shadows the initial store contents. -/
def getDesign (env : DesignEnv) (st : DesignState) (filename : String) : Option Document :=
  match st.saved.find? (fun e => e.1 == filename) with
  | some e => some { filename := filename, content := e.2.1 }
  | none => env.designStore filename

/-- Embedding of `WriteDesign._save_data_api_design` (design_api.py lines
163-170): parse the design content as JSON — a parse failure propagates as an
error — then, when the primary-or-refined interface field is truthy, hand it
to the diagram renderer under the class-view sub-directory. -/
def saveDataApiDesign (env : DesignEnv) (st : DesignState) (doc : Document) :
    DesignState × Except String Unit :=
  match jsonLoads doc.content with
  | .error e => (st, .error e)
  | .ok (.jobj fields) =>
    match getStructuredField fields DATA_STRUCTURES_AND_INTERFACES_key
        REFINED_DATA_STRUCTURES_AND_INTERFACES_key with
    | none => (st, .ok ())
    | some payload =>
      let pathname := env.workdir ++ "/" ++ DATA_API_DESIGN_FILE_REPO ++ "/" ++
        withSuffixEmpty doc.filename
      ({ st with renders := st.renders ++ [(pathname, payload)] }, .ok ())
  | .ok _ => (st, .error "AttributeError: object has no attribute get")

/-- Embedding of `WriteDesign._save_seq_flow` (design_api.py lines 172-179),
the call-flow analogue of `saveDataApiDesign`. -/
def saveSeqFlow (env : DesignEnv) (st : DesignState) (doc : Document) :
    DesignState × Except String Unit :=
  match jsonLoads doc.content with
  | .error e => (st, .error e)
  | .ok (.jobj fields) =>
    match getStructuredField fields PROGRAM_CALL_FLOW_key REFINED_PROGRAM_CALL_FLOW_key with
    | none => (st, .ok ())
    | some payload =>
      let pathname := env.workdir ++ "/" ++ SEQ_FLOW_FILE_REPO ++ "/" ++
        withSuffixEmpty doc.filename
      ({ st with renders := st.renders ++ [(pathname, payload)] }, .ok ())
  | .ok _ => (st, .error "AttributeError: object has no attribute get")

/-- Embedding of `WriteDesign._update_system_design` (design_api.py lines
145-161): NEW path when no design document exists (backend once on the PRD
content), REFINE path otherwise (backend once on the merge context); the
result is saved with a dependency edge to the PRD, then both structured
extractions run.  A raised exception is the `.error` result, with the state
reached so far kept (store saves are persistent side effects).  The trailing
`save_pdf` resource write is an external persistence call with no modelled
observable. -/
def updateSystemDesign (env : DesignEnv) (st : DesignState) (filename : String) :
    DesignState × Except String Document :=
  match env.prdStore filename with
  | none => (st, .error "AttributeError: NoneType object has no attribute content")
  | some prd =>
    let step1 : DesignState × Document :=
      match getDesign env st filename with
      | none =>
        let content := env.backendNew prd.content
        let st1 := { st with backendCalls := st.backendCalls + 1 }
        (saveDesign st1 filename content [prd.root_relative_path],
          { filename := filename, content := content })
      | some oldDoc =>
        let content := env.backendRefine (newReqContext oldDoc.content prd.content)
        let st1 := { st with backendCalls := st.backendCalls + 1 }
        let newDoc := { oldDoc with content := content }
        (saveDesign st1 newDoc.filename newDoc.content [prd.root_relative_path], newDoc)
    match saveDataApiDesign env step1.1 step1.2 with
    | (stA, .error e) => (stA, .error e)
    | (stA, .ok _) =>
      match saveSeqFlow env stA step1.2 with
      | (stB, .error e) => (stB, .error e)
      | (stB, .ok _) => (stB, .ok step1.2)

/-- Body of the changed-PRD loop of `WriteDesign.run` (design_api.py lines
115-121): record the template document among the changed files and save the
template as the design content with a dependency edge to the PRD document's
path under the PRD workdir.  No backend call occurs. -/
def runPrdStep (env : DesignEnv) (p : DesignState × List (String × Document))
    (filename : String) : DesignState × List (String × Document) :=
  let doc : Document := { filename := filename, content := REACT_NODE_TEMPLATE }
  (saveDesign p.1 filename REACT_NODE_TEMPLATE [env.prdWorkdir ++ "/" ++ filename],
    p.2 ++ [(filename, doc)])

/-- Changed-design loop of `WriteDesign.run` (design_api.py lines 124-128):
filenames already handled by the PRD loop are skipped; an exception from
`_update_system_design` aborts the run (later filenames are not attempted)
while earlier effects stand. -/
def runDesignsLoop (env : DesignEnv) :
    List String → DesignState → List (String × Document) →
      DesignState × Except String (List (String × Document))
  | [], st, acc => (st, .ok acc)
  | f :: rest, st, acc =>
    if (acc.lookup f).isSome then runDesignsLoop env rest st acc
    else
      match updateSystemDesign env st f with
      | (st1, .error e) => (st1, .error e)
      | (st1, .ok doc) => runDesignsLoop env rest st1 (acc ++ [(f, doc)])

/-- Embedding of `WriteDesign.run` (design_api.py lines 106-133) over the
changed PRD filenames and changed design filenames (each a key listing of a
`changed_files` mapping, hence duplicate-free).  Returns the final state and
the `changed_files` document mapping in insertion order, or the exception
that aborted the run. -/
def writeDesignRun (env : DesignEnv) (changed_prds changed_designs : List String) :
    DesignState × Except String (List (String × Document)) :=
  let p := changed_prds.foldl (runPrdStep env) ({}, [])
  runDesignsLoop env changed_designs p.1 p.2

/-- Filesystem paths as segment lists (the shape of Python's `Path.parts`). -/
abbrev FsPath := List String

/-- Filesystem slice touched by `WriteCode.ensure_critical_files`: the files
(with contents) and the directories that exist. -/
structure FileSystem where
  files : List (FsPath × String) := []
  dirs : List FsPath := []
deriving Repr, Inhabited, DecidableEq

/-- Nonempty prefixes of a path, shortest first: the directories that
`mkdir(parents=True)` guarantees to exist. -/
def pathPrefixes : FsPath → List FsPath
  | [] => []
  | s :: rest => [s] :: (pathPrefixes rest).map (fun p => s :: p)

/-- Create one directory, `exist_ok` style. -/
def addDir (fs : FileSystem) (p : FsPath) : FileSystem :=
  if p ∈ fs.dirs then fs else { fs with dirs := fs.dirs ++ [p] }

/-- Model of `Path.mkdir(parents=True, exist_ok=True)`. -/
def mkdirParents (fs : FileSystem) (p : FsPath) : FileSystem :=
  (pathPrefixes p).foldl addDir fs

/-- Model of `Path(s).parts` for the relative and absolute-as-string paths the
pipeline builds (no repeated or trailing separators occur in them). -/
def pathParts (s : String) : List String :=
  if s = "" then [] else splitOnChar '/' s

/-- Default manifest content of the single critical file
(write_code.py lines 115-156). -/
def PACKAGE_JSON_DEFAULT : String := "\x7b
  \"name\": \"project\",
  \"version\": \"1.0.0\",
  \"description\": \"A full-stack application\",
  \"scripts\": \x7b
    \"start\": \"concurrently \\\"npm run start:frontend\\\" \\\"npm run start:backend\\\"\",
    \"start:frontend\": \"cd frontend && react-scripts start\",
    \"start:backend\": \"cd backend && node server.js\",
    \"build\": \"cd frontend && react-scripts build\",
    \"test\": \"cd frontend && react-scripts test\",
    \"eject\": \"cd frontend && react-scripts eject\"
  \x7d,
  \"dependencies\": \x7b
    \"concurrently\": \"^7.6.0\"
  \x7d,
  \"frontend\": \x7b
    \"dependencies\": \x7b
      \"react\": \"^18.2.0\",
      \"react-dom\": \"^18.2.0\",
      \"react-scripts\": \"5.0.1\"
    \x7d
  \x7d,
  \"backend\": \x7b
    \"dependencies\": \x7b
      \"express\": \"^4.18.2\",
      \"cors\": \"^2.8.5\",
      \"body-parser\": \"^1.20.1\"
    \x7d
  \x7d,
  \"browserslist\": \x7b
    \"production\": [
      \">0.2%\",
      \"not dead\",
      \"not op_mini all\"
    ],
    \"development\": [
      \"last 1 chrome version\",
      \"last 1 firefox version\",
      \"last 1 safari version\"
    ]
  \x7d
\x7d"

/-- The critical-file table of `WriteCode.ensure_critical_files`: a single
project-root manifest. -/
def criticalFiles : List (String × String) := [("package.json", PACKAGE_JSON_DEFAULT)]

/-- First path segments that are not treated as a project name
(write_code.py line 170). -/
def WELL_KNOWN_FIRST_PARTS : List String := ["frontend", "backend", "package.json"]

/-- Body of the critical-files loop (write_code.py lines 183-214): ensure the
parent directory, then write the file only when absent.  The store save's
dependency recording is an external-store effect, and a store-save failure
falls back to a direct write of the same content at the same path, so the
created file is the same either way; only the file write is modelled. -/
def ensureOneFile (projectDir : FsPath) (acc : FileSystem × List FsPath)
    (entry : String × String) : FileSystem × List FsPath :=
  let fullPath := projectDir ++ pathParts entry.1
  let fs1 := mkdirParents acc.1 fullPath.dropLast
  if (fs1.files.lookup fullPath).isSome then (fs1, acc.2)
  else ({ fs1 with files := fs1.files ++ [(fullPath, entry.2)] }, acc.2 ++ [fullPath])

/-- Embedding of `WriteCode.ensure_critical_files` (write_code.py lines
110-216): no-op without a code document or with a falsy
`root_relative_path`; otherwise infer the project root from the first segment
of the target filename — a non-well-known first segment names the project
directory under the workspace and both sub-area directories are created under
it — then ensure each critical file, never overwriting.  Returns the new
filesystem and the list of files created. -/
def ensureCriticalFiles (cc : CodingContext) (fs : FileSystem) :
    FileSystem × List FsPath :=
  match cc.code_doc with
  | none => (fs, [])
  | some codeDoc =>
    if codeDoc.root_relative_path = "" then (fs, [])
    else
      let ws := pathParts codeDoc.root_path
      let fsProj : FileSystem × FsPath :=
        match pathParts cc.filename with
        | p0 :: _ =>
          if p0 ∈ WELL_KNOWN_FIRST_PARTS then (fs, ws)
          else
            let pd := ws ++ [p0]
            (mkdirParents (mkdirParents fs (pd ++ ["frontend"])) (pd ++ ["backend"]), pd)
        | [] => (fs, ws)
      criticalFiles.foldl (ensureOneFile fsProj.2) (fsProj.1, [])

/-!  Helper lemmas. -/

/-- The `(filename, content)` pairs that contribute non-marker blocks: the
entries of `L` other than `exclude` whose code document is present in the
current source store, in `L`'s order. -/
def contribPairs (srcFiles : String → Option String) (exclude : String)
    (L : List String) : List (String × String) :=
  L.filterMap (fun f =>
    if f = exclude then none
    else
      match srcFiles f with
      | some c => some (f, c)
      | none => none)

/-- Rendering of the contributing pairs as labeled blocks. -/
def contribBlocks (srcFiles : String → Option String) (exclude : String)
    (L : List String) : List String :=
  (contribPairs srcFiles exclude L).map (fun p => codeBlock p.1 p.2)

theorem exceptIsError_iff {ε α : Type} (x : Except ε α) :
    exceptIsError x = true ↔ ∃ e, x = .error e := by
  cases x <;> simp [exceptIsError]

theorem contribPairs_cons (src : String → Option String) (ex f : String) (L : List String) :
    contribPairs src ex (f :: L) =
      (if f = ex then [] else
        match src f with
        | some c => [(f, c)]
        | none => []) ++ contribPairs src ex L := by
  by_cases h : f = ex
  · simp [contribPairs, h]
  · cases hsrc : src f <;> simp [contribPairs, h, hsrc]

theorem contribPairs_append (src : String → Option String) (ex : String)
    (L1 L2 : List String) :
    contribPairs src ex (L1 ++ L2) = contribPairs src ex L1 ++ contribPairs src ex L2 := by
  simp [contribPairs, List.filterMap_append]

theorem contribPairs_map_fst (src : String → Option String) (ex : String) :
    ∀ L : List String,
      (contribPairs src ex L).map Prod.fst =
        L.filter (fun f => !(f == ex) && (src f).isSome) := by
  intro L
  induction L with
  | nil => rfl
  | cons f L ih =>
    rw [contribPairs_cons]
    by_cases h : f = ex
    · simpa [h] using ih
    · cases hsrc : src f <;> simp [h, hsrc, ih]

theorem normalStep_foldl (src : String → Option String) (ex : String) :
    ∀ (L : List String) (acc : List String),
      L.foldl (normalStep src ex) acc = acc ++ contribBlocks src ex L := by
  intro L
  induction L with
  | nil => simp [contribBlocks, contribPairs]
  | cons f L ih =>
    intro acc
    rw [List.foldl_cons, ih]
    simp only [contribBlocks]
    rw [contribPairs_cons]
    by_cases h : f = ex
    · simp [normalStep, h]
    · cases hsrc : src f <;> simp [normalStep, h, hsrc]

theorem incStep_foldl_no_exclude (src old : String → Option String) (ex : String) :
    ∀ (L : List String) (acc : List String), ex ∉ L →
      L.foldl (incStep src old ex) acc = acc ++ contribBlocks src ex L := by
  intro L
  induction L with
  | nil => simp [contribBlocks, contribPairs]
  | cons f L ih =>
    intro acc hmem
    have hf : f ≠ ex := fun h => hmem (h ▸ List.mem_cons_self f L)
    have hL : ex ∉ L := fun h => hmem (List.mem_cons_of_mem f h)
    rw [List.foldl_cons, ih _ hL]
    simp only [contribBlocks]
    rw [contribPairs_cons]
    cases hsrc : src f <;> simp [incStep, hf, hsrc]

theorem incStep_foldl_first (src old : String → Option String) (ex oc : String)
    (hold : old ex = some oc) (hmain : ex ≠ "main.py") :
    ∀ (L : List String) (acc : List String), ex ∈ L → L.Nodup →
      L.foldl (incStep src old ex) acc =
        rewrittenBlock ex oc :: (acc ++ contribBlocks src ex L) := by
  intro L
  induction L with
  | nil => intro acc h; exact absurd h (List.not_mem_nil ex)
  | cons f L ih =>
    intro acc hmem hnd
    by_cases h : f = ex
    · subst h
      have hL : f ∉ L := (List.nodup_cons.1 hnd).1
      rw [List.foldl_cons]
      have hstep : incStep src old f acc f = rewrittenBlock f oc :: acc := by
        simp [incStep, hold, hmain]
      rw [hstep, incStep_foldl_no_exclude src old f L _ hL]
      simp only [contribBlocks]
      rw [contribPairs_cons]
      simp
    · have hL : ex ∈ L := (List.mem_cons.1 hmem).resolve_left (fun hh => h hh.symm)
      rw [List.foldl_cons, ih _ hL (List.nodup_cons.1 hnd).2]
      simp only [contribBlocks]
      rw [contribPairs_cons]
      cases hsrc : src f <;> simp [incStep, h, hsrc]

theorem normalCodes_eq (src : String → Option String) (ex : String) (L : List String) :
    normalCodes src ex L = contribBlocks src ex L := by
  simp [normalCodes, normalStep_foldl]

theorem incCodes_marker (src old : String → Option String) (ex oc : String)
    (L : List String) (hmem : ex ∈ L) (hnd : L.Nodup)
    (hold : old ex = some oc) (hmain : ex ≠ "main.py") :
    incCodes src old ex L = rewrittenBlock ex oc :: contribBlocks src ex L := by
  rw [incCodes, incStep_foldl_first src old ex oc hold hmain L [] hmem hnd]
  simp

/-!  Claim theorems. -/

/-- C7: in normal mode, for every task list and every excluded filename, the
assembled output consists exactly of the labeled blocks of the task-list
entries other than the excluded filename whose code document is present in
the source store, in the task list's order (absent documents are skipped
without disturbing the order), and no block is generated for the excluded
filename. -/
theorem normal_mode_preserves_task_order_and_excludes
    (taskStore : String → Option Document) (srcFiles oldFiles : String → Option String)
    (exclude : String) (td : Document) (fields : List (String × JVal))
    (hcontent : td.content ≠ "")
    (hparse : jsonLoads td.content = .ok (.jobj fields)) :
    getCodes (some td) taskStore srcFiles oldFiles exclude false [] =
      .ok (String.intercalate "\n"
        (contribBlocks srcFiles exclude (taskListOf fields TASK_LIST_key))) ∧
    (contribPairs srcFiles exclude (taskListOf fields TASK_LIST_key)).map Prod.fst =
      (taskListOf fields TASK_LIST_key).filter
        (fun f => !(f == exclude) && (srcFiles f).isSome) ∧
    exclude ∉ (contribPairs srcFiles exclude (taskListOf fields TASK_LIST_key)).map Prod.fst := by
  refine ⟨?_, contribPairs_map_fst srcFiles exclude _, ?_⟩
  · simp only [getCodes, if_neg hcontent, hparse, normalCodes_eq]
    rfl
  · rw [contribPairs_map_fst]
    intro hmem
    have h2 := List.of_mem_filter hmem
    simp at h2

/-- Witness for C7 at the concrete task list `["a.py", "b.py", "c.py"]` with
`b.py` excluded and `c.py` absent from the source store. -/
def tdW7 : Document where
  filename := "tasks.json"
  content := "\x7b\"Task list\": [\"a.py\", \"b.py\", \"c.py\"]\x7d"

/-- Source store for the C7 witness. -/
def srcW7 : String → Option String :=
  fun f => if f = "a.py" then some "ca" else if f = "b.py" then some "cb" else none

/-- Witness theorem for C7: the concrete assembled output and the exclusion,
obtained from the claim theorem at a concrete input. -/
theorem normal_mode_preserves_task_order_and_excludes_witness :
    getCodes (some tdW7) (fun _ => none) srcW7 (fun _ => none) "b.py" false [] =
      .ok ("----- a.py\n```ca```") ∧
    "b.py" ∉ (contribPairs srcW7 "b.py" ["a.py", "b.py", "c.py"]).map Prod.fst := by
  have h := normal_mode_preserves_task_order_and_excludes (fun _ => none) srcW7
    (fun _ => none) "b.py" tdW7
    [("Task list", JVal.jarr [JVal.jstr "a.py", JVal.jstr "b.py", JVal.jstr "c.py"])]
    (by decide) rfl
  exact ⟨by rw [h.1]; rfl, h.2.2⟩

/-- C6: in incremental mode, when the rewritten-file marker is produced (the
excluded filename is in the prior-iteration store and is not `main.py`), the
marker block — containing the prior-iteration content verbatim — is the first
block of the assembled output regardless of where the excluded filename falls
in the union iteration order, and all other blocks follow in union iteration
order (current-store content, absent files skipped). -/
theorem inc_mode_marker_block_first
    (taskStore : String → Option Document) (srcFiles oldFiles : String → Option String)
    (exclude oldContent : String) (td : Document) (fields : List (String × JVal))
    (unionList : List String)
    (hcontent : td.content ≠ "")
    (hparse : jsonLoads td.content = .ok (.jobj fields))
    (hmem : exclude ∈ unionList) (hnd : unionList.Nodup)
    (hold : oldFiles exclude = some oldContent) (hmain : exclude ≠ "main.py") :
    getCodes (some td) taskStore srcFiles oldFiles exclude true unionList =
      .ok (String.intercalate "\n"
        (rewrittenBlock exclude oldContent :: contribBlocks srcFiles exclude unionList)) ∧
    (contribPairs srcFiles exclude unionList).map Prod.fst =
      unionList.filter (fun f => !(f == exclude) && (srcFiles f).isSome) := by
  refine ⟨?_, contribPairs_map_fst srcFiles exclude _⟩
  simp only [getCodes, if_neg hcontent, hparse,
    incCodes_marker srcFiles oldFiles exclude oldContent unionList hmem hnd hold hmain]
  rfl

/-- Union iteration order used by the C6 witness, with the excluded filename
in the middle. -/
def unionW6 : List String := ["a.js", "b.js", "c.js"]

/-- Current-source store of the C6 witness (and of the C2 analysis): `a.js`
and `b.js` are present, `c.js` is not. -/
def srcC2 : String → Option String :=
  fun f => if f = "a.js" then some "ca" else if f = "b.js" then some "cb" else none

/-- Prior-iteration store of the C6 witness (and of the C2 analysis): `b.js`
and `c.js` are present. -/
def oldC2 : String → Option String :=
  fun f => if f = "b.js" then some "old-b" else if f = "c.js" then some "cc" else none

/-- Task document of the C6 witness (incremental mode only needs the content
to parse as a JSON object). -/
def tdW6 : Document where
  filename := "tasks.json"
  content := "\x7b\"Refined Task list\": [\"a.js\"]\x7d"

/-- Witness theorem for C6: concrete incremental assembly with the excluded
file in the middle of the union order; the marker block comes first. -/
theorem inc_mode_marker_block_first_witness :
    getCodes (some tdW6) (fun _ => none) srcC2 oldC2 "b.js" true unionW6 =
      .ok ("-----Now, b.js to be rewritten\n```old-b```\n=====" ++ "\n" ++
        "----- a.js\n```ca```") := by
  have h := inc_mode_marker_block_first (fun _ => none) srcC2 oldC2 "b.js" "old-b"
    tdW6 [("Refined Task list", JVal.jarr [JVal.jstr "a.js"])] unionW6
    (by decide) rfl (by decide) (by decide) rfl (by decide)
  rw [h.1]
  rfl

/-- C2 counterexample: with current files `a.js, b.js`, old files `b.js,
c.js`, excluding `b.js`, the union filename `c.js` — absent from the current
store — is NOT fetched from the prior-iteration store: no block for `c.js`
appears in the assembled output, contradicting the claim. -/
theorem incCodes_drops_old_only_file :
    incCodes srcC2 oldC2 "b.js" ["a.js", "b.js", "c.js"] =
      [rewrittenBlock "b.js" "old-b", codeBlock "a.js" "ca"] ∧
    codeBlock "c.js" "cc" ∉ incCodes srcC2 oldC2 "b.js" ["a.js", "b.js", "c.js"] :=
  ⟨rfl, by decide⟩

theorem incStep_foldl_skip (src old : String → Option String) (ex f : String)
    (hf : f ≠ ex) (habsent : src f = none) :
    ∀ (L : List String) (acc : List String),
      L.foldl (incStep src old ex) acc =
        (L.filter (fun g => !(g == f))).foldl (incStep src old ex) acc := by
  intro L
  induction L with
  | nil => intro acc; rfl
  | cons g L ih =>
    intro acc
    by_cases hg : g = f
    · subst hg
      have hstep : incStep src old ex acc g = acc := by
        simp [incStep, hf, habsent]
      have hfilter : (g :: L).filter (fun x => !(x == g)) = L.filter (fun x => !(x == g)) := by
        simp
      rw [List.foldl_cons, hstep, hfilter, ih]
    · have hfilter : (g :: L).filter (fun x => !(x == f)) =
          g :: L.filter (fun x => !(x == f)) := by
        simp [List.filter_cons, hg]
      rw [List.foldl_cons, hfilter, List.foldl_cons, ih]

/-- C2 amended: in incremental mode, a union filename other than the excluded
one that is absent from the current source store contributes nothing to the
assembled output — removing it from the union iteration order leaves the
output unchanged — even when it is present in the prior-iteration store; only
the excluded filename's content is ever fetched from the prior-iteration
store. -/
theorem inc_mode_skips_current_absent_files (src old : String → Option String)
    (exclude f : String) (hf : f ≠ exclude) (habsent : src f = none)
    (L : List String) :
    incCodes src old exclude L =
      incCodes src old exclude (L.filter (fun g => !(g == f))) := by
  rw [incCodes, incCodes, incStep_foldl_skip src old exclude f hf habsent L []]

/-- Witness theorem for C2's amended claim at the concrete stores of the
scenario: dropping `c.js` from the union order leaves the output unchanged. -/
theorem inc_mode_skips_current_absent_files_witness :
    incCodes srcC2 oldC2 "b.js" ["a.js", "b.js", "c.js"] =
      incCodes srcC2 oldC2 "b.js" ["a.js", "b.js"] := by
  have h := inc_mode_skips_current_absent_files srcC2 oldC2 "b.js" "c.js"
    (by decide) rfl ["a.js", "b.js", "c.js"]
  exact h

/-- Task document of the C4 counterexample: present, but with empty content. -/
def tdC4 : Document where
  filename := "task.json"
  content := ""

/-- The well-formed document the task store holds under the same filename —
included to show the store's contents cannot rescue the call. -/
def refetchedC4 : Document where
  filename := "task.json"
  content := "\x7b\"Task list\": [\"a.py\"]\x7d"

/-- Task store of the C4 counterexample. -/
def taskStoreC4 : String → Option Document :=
  fun f => if f = "task.json" then some refetchedC4 else none

/-- Source store of the C4 counterexample. -/
def srcC4 : String → Option String :=
  fun f => if f = "a.py" then some "ca" else none

/-- C4 counterexample: with a task document that is present but has empty
content, the assembler does not return empty text — the source re-fetches the
task document without awaiting the store's async call, so reading `.content`
off the coroutine raises `AttributeError`; the call fails even though the
task store holds a well-formed document under that filename. -/
theorem empty_task_content_not_empty_output :
    getCodes (some tdC4) taskStoreC4 srcC4 (fun _ => none) "x.py" false [] =
      .error "AttributeError: coroutine object has no attribute content" ∧
    (Except.error "AttributeError: coroutine object has no attribute content" :
      Except String String) ≠ .ok "" := by
  refine ⟨rfl, fun h => ?_⟩
  exact Except.noConfusion h

/-- C4 amended: if the task document is absent the assembler returns empty
text in both modes; if it is present with empty content, the assembler does
not return empty text — the source re-fetches the task document from the
task store without awaiting the async call, so accessing `.content` on the
resulting coroutine raises `AttributeError` and the call fails, for every
task store and in both modes. -/
theorem assembler_absent_task_and_empty_content_raises :
    (∀ (taskStore : String → Option Document) (srcFiles oldFiles : String → Option String)
      (exclude : String) (useInc : Bool) (L : List String),
      getCodes none taskStore srcFiles oldFiles exclude useInc L = .ok "") ∧
    (∀ (taskStore : String → Option Document) (srcFiles oldFiles : String → Option String)
      (exclude : String) (useInc : Bool) (L : List String) (td : Document),
      td.content = "" →
      getCodes (some td) taskStore srcFiles oldFiles exclude useInc L =
        .error "AttributeError: coroutine object has no attribute content") := by
  constructor
  · intro taskStore srcFiles oldFiles exclude useInc L
    rfl
  · intro taskStore srcFiles oldFiles exclude useInc L td h1
    simp only [getCodes, if_pos h1]

/-- Witness theorem for C4's amended claim at the concrete input of the
counterexample: an absent task document yields empty text, and the
empty-content task document makes the call fail. -/
theorem assembler_absent_task_and_empty_content_raises_witness :
    getCodes none taskStoreC4 srcC4 (fun _ => none) "x.py" false [] = .ok "" ∧
    getCodes (some tdC4) taskStoreC4 srcC4 (fun _ => none) "x.py" false [] =
      .error "AttributeError: coroutine object has no attribute content" :=
  ⟨assembler_absent_task_and_empty_content_raises.1 taskStoreC4 srcC4 (fun _ => none)
      "x.py" false [],
    assembler_absent_task_and_empty_content_raises.2 taskStoreC4 srcC4 (fun _ => none)
      "x.py" false [] tdC4 rfl⟩

theorem retryRun_ok_step (call : Nat → Except String String) (attempt remaining : Nat)
    (r : String) (h : call attempt = .ok r) :
    retryRun call attempt (remaining + 1) = .ok r := by
  simp [retryRun, h]

theorem retryRun_error_step (call : Nat → Except String String) (attempt remaining : Nat)
    (e : String) (h : call attempt = .error e) (hrem : remaining ≠ 0) :
    retryRun call attempt (remaining + 1) = retryRun call (attempt + 1) remaining := by
  simp [retryRun, h, hrem]

/-- C5: a backend failing on exactly the first 5 attempts and succeeding on
the 6th makes the generation invoker return the 6th attempt's (extracted)
result without error; a backend failing on all 6 attempts makes the invoker
propagate the error, which the per-file caller downgrades to an empty-content
code document while still returning a coding context. -/
theorem retry_six_attempts_and_downgrade
    (ask askAllFail : Nat → Except String String) (r : String)
    (hfail : ∀ i, 1 ≤ i → i ≤ 5 → exceptIsError (ask i) = true)
    (hok : ask 6 = .ok r)
    (hallfail : ∀ i, 1 ≤ i → i ≤ 6 → exceptIsError (askAllFail i) = true)
    (cc : CodingContext) (ws : String) :
    writeCodeModel ask = .ok (parseCodeModel r) ∧
    exceptIsError (writeCodeModel askAllFail) = true ∧
    ((applyGeneratedCode cc ws (writeCodeModel askAllFail)).code_doc.map Document.content) =
      some "" := by
  obtain ⟨e1, h1⟩ := (exceptIsError_iff _).1 (hfail 1 (by norm_num) (by norm_num))
  obtain ⟨e2, h2⟩ := (exceptIsError_iff _).1 (hfail 2 (by norm_num) (by norm_num))
  obtain ⟨e3, h3⟩ := (exceptIsError_iff _).1 (hfail 3 (by norm_num) (by norm_num))
  obtain ⟨e4, h4⟩ := (exceptIsError_iff _).1 (hfail 4 (by norm_num) (by norm_num))
  obtain ⟨e5, h5⟩ := (exceptIsError_iff _).1 (hfail 5 (by norm_num) (by norm_num))
  obtain ⟨f1, g1⟩ := (exceptIsError_iff _).1 (hallfail 1 (by norm_num) (by norm_num))
  obtain ⟨f2, g2⟩ := (exceptIsError_iff _).1 (hallfail 2 (by norm_num) (by norm_num))
  obtain ⟨f3, g3⟩ := (exceptIsError_iff _).1 (hallfail 3 (by norm_num) (by norm_num))
  obtain ⟨f4, g4⟩ := (exceptIsError_iff _).1 (hallfail 4 (by norm_num) (by norm_num))
  obtain ⟨f5, g5⟩ := (exceptIsError_iff _).1 (hallfail 5 (by norm_num) (by norm_num))
  obtain ⟨f6, g6⟩ := (exceptIsError_iff _).1 (hallfail 6 (by norm_num) (by norm_num))
  have hchain : retryRun ask 1 6 = .ok r := by
    have s1 : retryRun ask 1 6 = retryRun ask 2 5 :=
      retryRun_error_step ask 1 5 e1 h1 (by norm_num)
    have s2 : retryRun ask 2 5 = retryRun ask 3 4 :=
      retryRun_error_step ask 2 4 e2 h2 (by norm_num)
    have s3 : retryRun ask 3 4 = retryRun ask 4 3 :=
      retryRun_error_step ask 3 3 e3 h3 (by norm_num)
    have s4 : retryRun ask 4 3 = retryRun ask 5 2 :=
      retryRun_error_step ask 4 2 e4 h4 (by norm_num)
    have s5 : retryRun ask 5 2 = retryRun ask 6 1 :=
      retryRun_error_step ask 5 1 e5 h5 (by norm_num)
    have s6 : retryRun ask 6 1 = .ok r := retryRun_ok_step ask 6 0 r hok
    rw [s1, s2, s3, s4, s5, s6]
  have hchain2 : retryRun askAllFail 1 6 = .error f6 := by
    have s1 : retryRun askAllFail 1 6 = retryRun askAllFail 2 5 :=
      retryRun_error_step askAllFail 1 5 f1 g1 (by norm_num)
    have s2 : retryRun askAllFail 2 5 = retryRun askAllFail 3 4 :=
      retryRun_error_step askAllFail 2 4 f2 g2 (by norm_num)
    have s3 : retryRun askAllFail 3 4 = retryRun askAllFail 4 3 :=
      retryRun_error_step askAllFail 3 3 f3 g3 (by norm_num)
    have s4 : retryRun askAllFail 4 3 = retryRun askAllFail 5 2 :=
      retryRun_error_step askAllFail 4 2 f4 g4 (by norm_num)
    have s5 : retryRun askAllFail 5 2 = retryRun askAllFail 6 1 :=
      retryRun_error_step askAllFail 5 1 f5 g5 (by norm_num)
    have s6 : retryRun askAllFail 6 1 = .error f6 := by
      simp [retryRun, g6]
    rw [s1, s2, s3, s4, s5, s6]
  have hW : writeCodeModel askAllFail = .error f6 := by
    simp only [writeCodeModel, STOP_AFTER_ATTEMPT, hchain2]
  refine ⟨?_, ?_, ?_⟩
  · simp only [writeCodeModel, STOP_AFTER_ATTEMPT, hchain]
  · simp [hW, exceptIsError]
  · cases hcd : cc.code_doc <;> simp [applyGeneratedCode, hW, hcd]

/-- Backend of the C5 witness: attempts 1..5 fail, attempt 6 succeeds. -/
def askW5 : Nat → Except String String :=
  fun i => if i ≤ 5 then .error "TransientGenerationError"
           else .ok "header\n```js\nconst x = 1;\n```"

/-- Backend of the C5 witness that fails on every attempt. -/
def askW5fail : Nat → Except String String := fun _ => .error "TransientGenerationError"

/-- Witness theorem for C5 at concrete backends: the 6th attempt's extracted
result is returned; six failures propagate and downgrade to empty content. -/
theorem retry_six_attempts_and_downgrade_witness :
    writeCodeModel askW5 = .ok (parseCodeModel "header\n```js\nconst x = 1;\n```") ∧
    exceptIsError (writeCodeModel askW5fail) = true ∧
    ((applyGeneratedCode {} "" (writeCodeModel askW5fail)).code_doc.map Document.content) =
      some "" := by
  exact retry_six_attempts_and_downgrade askW5 askW5fail _
    (fun i h1 h2 => by interval_cases i <;> rfl) rfl (fun i h1 h2 => rfl) {} ""

/-- C10: whenever a bugfix-feedback document exists, the code context placed
in the generation prompt is exactly the current content of the target's
existing code document, and neither the incremental nor the normal context
assembly is invoked — the result is the same for every pair of assembly
thunks and in both modes. -/
theorem bugfix_feedback_shortcircuits_context
    (bugFeedback : Option Document) (bd d : Document) (inc : Bool) (cc : CodingContext)
    (assembleInc assembleNormal : Unit → Except String String)
    (hbug : bugFeedback = some bd) (hcode : cc.code_doc = some d) :
    selectCodeContext bugFeedback inc cc assembleInc assembleNormal =
      .ok (ContextSource.bugfix, d.content) := by
  simp [selectCodeContext, hbug, hcode]

/-- Bugfix-feedback document of the C10 witness. -/
def bugDocW : Document where
  filename := "bugfix.md"
  content := "fix the crash"

/-- Existing code document of the C10 witness. -/
def codeDocW10 : Document where
  filename := "a.py"
  content := "current code"

/-- Coding context of the C10 witness. -/
def ccW10 : CodingContext where
  filename := "a.py"
  code_doc := some codeDocW10

/-- Witness theorem for C10 at a concrete context, with assembly thunks that
would visibly fail if invoked. -/
theorem bugfix_feedback_shortcircuits_context_witness :
    selectCodeContext (some bugDocW) true ccW10
      (fun _ => .error "incremental assembly invoked")
      (fun _ => .error "normal assembly invoked") =
      .ok (ContextSource.bugfix, "current code") :=
  bugfix_feedback_shortcircuits_context (some bugDocW) bugDocW codeDocW10 true ccW10
    (fun _ => .error "incremental assembly invoked")
    (fun _ => .error "normal assembly invoked") rfl rfl

theorem runPrdStep_foldl (env : DesignEnv) :
    ∀ (prds : List String) (st : DesignState) (acc : List (String × Document)),
      (prds.foldl (runPrdStep env) (st, acc)).1.backendCalls = st.backendCalls ∧
      (prds.foldl (runPrdStep env) (st, acc)).1.saved =
        (prds.map (fun g => (g, REACT_NODE_TEMPLATE, [env.prdWorkdir ++ "/" ++ g]))).reverse
          ++ st.saved ∧
      (prds.foldl (runPrdStep env) (st, acc)).2 =
        acc ++ prds.map
          (fun g => (g, ({ filename := g, content := REACT_NODE_TEMPLATE } : Document))) := by
  intro prds
  induction prds with
  | nil => intro st acc; simp
  | cons f prds ih =>
    intro st acc
    rw [List.foldl_cons]
    simp only [runPrdStep]
    have h := ih (saveDesign st f REACT_NODE_TEMPLATE [env.prdWorkdir ++ "/" ++ f])
      (acc ++ [(f, ({ filename := f, content := REACT_NODE_TEMPLATE } : Document))])
    refine ⟨?_, ?_, ?_⟩
    · exact h.1
    · rw [h.2.1]
      simp [saveDesign]
    · rw [h.2.2]
      simp

theorem saveDataApiDesign_state (env : DesignEnv) (st : DesignState) (doc : Document) :
    (saveDataApiDesign env st doc).1.saved = st.saved ∧
    (saveDataApiDesign env st doc).1.backendCalls = st.backendCalls := by
  simp only [saveDataApiDesign]
  split
  · exact ⟨rfl, rfl⟩
  · split
    · exact ⟨rfl, rfl⟩
    · exact ⟨rfl, rfl⟩
  · exact ⟨rfl, rfl⟩

theorem saveSeqFlow_state (env : DesignEnv) (st : DesignState) (doc : Document) :
    (saveSeqFlow env st doc).1.saved = st.saved ∧
    (saveSeqFlow env st doc).1.backendCalls = st.backendCalls := by
  simp only [saveSeqFlow]
  split
  · exact ⟨rfl, rfl⟩
  · split
    · exact ⟨rfl, rfl⟩
    · exact ⟨rfl, rfl⟩
  · exact ⟨rfl, rfl⟩

theorem updateSystemDesign_new_effects (env : DesignEnv) (st : DesignState) (f : String)
    (prd : Document) (hprd : env.prdStore f = some prd) (hnew : getDesign env st f = none) :
    (updateSystemDesign env st f).1.saved =
      (f, env.backendNew prd.content, [prd.root_relative_path]) :: st.saved ∧
    (updateSystemDesign env st f).1.backendCalls = st.backendCalls + 1 := by
  simp only [updateSystemDesign, hprd, hnew]
  split
  · rename_i stA e heqA
    have hAst := saveDataApiDesign_state env
      (saveDesign { st with backendCalls := st.backendCalls + 1 } f
        (env.backendNew prd.content) [prd.root_relative_path])
      { filename := f, content := env.backendNew prd.content }
    rw [heqA] at hAst
    exact ⟨hAst.1.trans rfl, hAst.2.trans rfl⟩
  · rename_i stA u heqA
    have hAst := saveDataApiDesign_state env
      (saveDesign { st with backendCalls := st.backendCalls + 1 } f
        (env.backendNew prd.content) [prd.root_relative_path])
      { filename := f, content := env.backendNew prd.content }
    rw [heqA] at hAst
    split
    · rename_i stB e2 heqB
      have hBst := saveSeqFlow_state env stA
        { filename := f, content := env.backendNew prd.content }
      rw [heqB] at hBst
      exact ⟨(hBst.1.trans hAst.1).trans rfl, (hBst.2.trans hAst.2).trans rfl⟩
    · rename_i stB u2 heqB
      have hBst := saveSeqFlow_state env stA
        { filename := f, content := env.backendNew prd.content }
      rw [heqB] at hBst
      exact ⟨(hBst.1.trans hAst.1).trans rfl, (hBst.2.trans hAst.2).trans rfl⟩

theorem runDesignsLoop_single_new (env : DesignEnv) (st : DesignState)
    (acc : List (String × Document)) (g : String) (prd : Document)
    (hlook : (acc.lookup g).isSome = false)
    (hprd : env.prdStore g = some prd) (hdes : getDesign env st g = none) :
    (runDesignsLoop env [g] st acc).1.saved =
      (g, env.backendNew prd.content, [prd.root_relative_path]) :: st.saved ∧
    (runDesignsLoop env [g] st acc).1.backendCalls = st.backendCalls + 1 := by
  have hupd := updateSystemDesign_new_effects env st g prd hprd hdes
  simp only [runDesignsLoop]
  rw [if_neg (by simp [hlook])]
  rcases hU : updateSystemDesign env st g with ⟨stU, rU⟩
  rw [hU] at hupd
  cases rU with
  | error e => exact ⟨hupd.1, hupd.2⟩
  | ok doc => exact ⟨hupd.1, hupd.2⟩

theorem runDesignsLoop_single_skip (env : DesignEnv) (st : DesignState)
    (acc : List (String × Document)) (g : String)
    (hlook : (acc.lookup g).isSome = true) :
    runDesignsLoop env [g] st acc = (st, .ok acc) := by
  simp only [runDesignsLoop]
  rw [if_pos hlook]

theorem lookup_map_pair_isSome {β : Type} (f : String → β) (l : List String) (g : String) :
    (((l.map (fun x => (x, f x))).lookup g).isSome = true) ↔ g ∈ l := by
  induction l with
  | nil => simp
  | cons x l ih =>
    rw [List.map_cons, List.lookup_cons]
    cases hx : g == x
    · simp only [hx]
      rw [ih]
      constructor
      · exact fun h => List.mem_cons_of_mem x h
      · intro h
        rcases List.mem_cons.1 h with h1 | h2
        · subst h1
          simp at hx
        · exact h2
    · simp only [hx]
      constructor
      · intro _
        exact (eq_of_beq hx) ▸ List.mem_cons_self x l
      · intro _
        rfl

/-- Environment of the C1 counterexample: one changed PRD filename `a.md`
with no existing design document; constant backends so every invocation is
observable in the call count. -/
def envC1 : DesignEnv where
  prdStore := fun _ => none
  designStore := fun _ => none
  backendNew := fun _ => "BACKEND-NEW-RESULT"
  backendRefine := fun _ => "BACKEND-REFINE-RESULT"
  prdWorkdir := "/ws/docs/prd"
  workdir := "/ws"

/-- C1 counterexample: for the changed PRD filename `a.md` with no design
document, the run invokes the generation backend ZERO times (not exactly
once) and saves the fixed architecture template (not the backend's serialized
structured result) as the new design document's content — only the dependency
edge to the requirement document matches the claim. -/
theorem changed_prd_bypasses_backend :
    (writeDesignRun envC1 ["a.md"] []).1.backendCalls = 0 ∧
    (writeDesignRun envC1 ["a.md"] []).1.saved =
      [("a.md", REACT_NODE_TEMPLATE, ["/ws/docs/prd/a.md"])] :=
  ⟨rfl, rfl⟩

/-- C1 amended: for every changed PRD filename — whether or not a design
document exists for it — the design synthesizer bypasses the NEW/REFINE
machine: a run whose changed-design set is empty performs no backend
invocation at all, and saves the fixed React/Node architecture template as
that filename's design content with a dependency edge to the requirement
document under the PRD workdir (first conjunct).  The backend-driven NEW
path runs only for changed design-category filenames not among the changed
PRDs: such a filename with a PRD but no design document gets exactly one
backend invocation, with the serialized result saved under a dependency edge
to the PRD (second conjunct), while a changed design filename that IS among
the changed PRDs is skipped by the design loop entirely — the run is the
same as without it (third conjunct). -/
theorem changed_prd_saves_template_without_backend :
    (∀ (env : DesignEnv) (prds : List String) (f : String), f ∈ prds →
      (writeDesignRun env prds []).1.backendCalls = 0 ∧
      (f, REACT_NODE_TEMPLATE, [env.prdWorkdir ++ "/" ++ f]) ∈
        (writeDesignRun env prds []).1.saved ∧
      (writeDesignRun env prds []).2 =
        .ok (prds.map
          (fun g => (g, ({ filename := g, content := REACT_NODE_TEMPLATE } : Document))))) ∧
    (∀ (env : DesignEnv) (prds : List String) (g : String) (prd : Document),
      g ∉ prds → env.prdStore g = some prd → env.designStore g = none →
      (writeDesignRun env prds [g]).1.backendCalls = 1 ∧
      (writeDesignRun env prds [g]).1.saved =
        (g, env.backendNew prd.content, [prd.root_relative_path]) ::
          (writeDesignRun env prds []).1.saved) ∧
    (∀ (env : DesignEnv) (prds : List String) (g : String), g ∈ prds →
      writeDesignRun env prds [g] = writeDesignRun env prds []) := by
  refine ⟨?_, ?_, ?_⟩
  · intro env prds f hf
    have h := runPrdStep_foldl env prds {} []
    simp only [writeDesignRun, runDesignsLoop]
    refine ⟨h.1, ?_, ?_⟩
    · rw [h.2.1]
      simp only [List.mem_append, List.mem_reverse]
      exact Or.inl (List.mem_map_of_mem _ hf)
    · rw [h.2.2]
      rfl
  · intro env prds g prd hg hprd hno
    have hfold := runPrdStep_foldl env prds {} []
    have hacc : (((prds.foldl (runPrdStep env) ({}, [])).2).lookup g).isSome = false := by
      rw [hfold.2.2, List.nil_append]
      cases hh : ((prds.map
          (fun x => (x, ({ filename := x, content := REACT_NODE_TEMPLATE } : Document)))).lookup
            g).isSome with
      | false => rfl
      | true =>
        exact ((hg ((lookup_map_pair_isSome
          (fun x => ({ filename := x, content := REACT_NODE_TEMPLATE } : Document))
          prds g).1 hh))).elim
    have h0 : ({} : DesignState).saved = [] := rfl
    have hfind : ((prds.foldl (runPrdStep env) ({}, [])).1.saved).find?
        (fun e => e.1 == g) = none := by
      rw [hfold.2.1, h0, List.append_nil, List.find?_eq_none]
      intro e he
      rw [List.mem_reverse] at he
      rcases List.mem_map.1 he with ⟨x, hx, rfl⟩
      have hxg : ¬ x = g := fun hh => hg (hh ▸ hx)
      simp [hxg]
    have hgetD : getDesign env (prds.foldl (runPrdStep env) ({}, [])).1 g = none := by
      simp only [getDesign, hfind]
      exact hno
    have hres := runDesignsLoop_single_new env (prds.foldl (runPrdStep env) ({}, [])).1
      (prds.foldl (runPrdStep env) ({}, [])).2 g prd hacc hprd hgetD
    constructor
    · have h2 := hres.2
      rw [hfold.1] at h2
      exact h2
    · exact hres.1
  · intro env prds g hg
    have hfold := runPrdStep_foldl env prds {} []
    have hacc : (((prds.foldl (runPrdStep env) ({}, [])).2).lookup g).isSome = true := by
      rw [hfold.2.2, List.nil_append]
      exact (lookup_map_pair_isSome
        (fun x => ({ filename := x, content := REACT_NODE_TEMPLATE } : Document)) prds g).2 hg
    exact runDesignsLoop_single_skip env _ _ g hacc

/-- PRD document of the C1 witness's changed-design filename `b.md`. -/
def prdDocC1 : Document where
  filename := "b.md"
  content := "PRD-B"
  root_relative_path := "docs/prd/b.md"

/-- Environment of the C1 witness's NEW-path run: `b.md` has a PRD and no
design document. -/
def envC1b : DesignEnv where
  prdStore := fun f => if f = "b.md" then some prdDocC1 else none
  designStore := fun _ => none
  backendNew := fun _ => "\x7b\"Implementation approach\": \"plan\"\x7d"
  backendRefine := fun _ => "BACKEND-REFINE-RESULT"
  prdWorkdir := "/ws/docs/prd"
  workdir := "/ws"

/-- Witness theorem for C1's amended claim at concrete runs: the changed PRD
`a.md` gets the template with zero backend calls; the changed design `b.md`
(not a changed PRD) takes the NEW path with exactly one backend call and the
serialized result saved; the changed design `a.md` (also a changed PRD) is
skipped. -/
theorem changed_prd_saves_template_without_backend_witness :
    ((writeDesignRun envC1 ["a.md"] []).1.backendCalls = 0 ∧
      ("a.md", REACT_NODE_TEMPLATE, ["/ws/docs/prd" ++ "/" ++ "a.md"]) ∈
        (writeDesignRun envC1 ["a.md"] []).1.saved ∧
      (writeDesignRun envC1 ["a.md"] []).2 =
        .ok [("a.md", ({ filename := "a.md", content := REACT_NODE_TEMPLATE } : Document))]) ∧
    ((writeDesignRun envC1b ["a.md"] ["b.md"]).1.backendCalls = 1 ∧
      (writeDesignRun envC1b ["a.md"] ["b.md"]).1.saved =
        ("b.md", envC1b.backendNew prdDocC1.content, [prdDocC1.root_relative_path]) ::
          (writeDesignRun envC1b ["a.md"] []).1.saved) ∧
    writeDesignRun envC1b ["a.md"] ["a.md"] = writeDesignRun envC1b ["a.md"] [] :=
  ⟨changed_prd_saves_template_without_backend.1 envC1 ["a.md"] "a.md"
      (List.mem_singleton.2 rfl),
    changed_prd_saves_template_without_backend.2.1 envC1b ["a.md"] "b.md" prdDocC1
      (by decide) rfl rfl,
    changed_prd_saves_template_without_backend.2.2 envC1b ["a.md"] "a.md"
      (List.mem_singleton.2 rfl)⟩

/-- PRD document of the C3 analysis. -/
def prdDocC3 : Document where
  filename := "d.md"
  content := "PRD-D"
  root_relative_path := "docs/prd/d.md"

/-- Environment of the C3 counterexample: the backend's serialized result is
not parseable as JSON. -/
def envC3 : DesignEnv where
  prdStore := fun f => if f = "d.md" then some prdDocC3 else none
  designStore := fun _ => none
  backendNew := fun _ => "not a json document"
  backendRefine := fun _ => "REFINE"
  prdWorkdir := "/ws/docs/prd"
  workdir := "/ws"

/-- C3 counterexample: when the produced design content cannot be parsed as
JSON, the parse error propagates out of `_update_system_design` — the
synthesis for that filename does NOT complete and no extraction is merely
"skipped" — even though the design document itself had already been saved,
contradicting the claim. -/
theorem unparseable_design_aborts_synthesis :
    exceptIsError (updateSystemDesign envC3 {} "d.md").2 = true ∧
    (updateSystemDesign envC3 {} "d.md").1.saved =
      [("d.md", "not a json document", ["docs/prd/d.md"])] ∧
    (updateSystemDesign envC3 {} "d.md").1.renders = [] :=
  ⟨rfl, rfl, rfl⟩

/-- C3 amended: on the NEW path, an absent (or falsy) structured field only
skips that extraction — the synthesis completes and the document is saved —
but design content that cannot be parsed as JSON at all makes the parse error
propagate out of the synthesis for that filename; the design document is
nevertheless already saved (with its dependency edge) before the failure. -/
theorem malformed_payload_propagates_after_save :
    (∀ (env : DesignEnv) (st : DesignState) (f : String) (prd : Document)
      (fields : List (String × JVal)),
      env.prdStore f = some prd → getDesign env st f = none →
      jsonLoads (env.backendNew prd.content) = .ok (.jobj fields) →
      getStructuredField fields DATA_STRUCTURES_AND_INTERFACES_key
        REFINED_DATA_STRUCTURES_AND_INTERFACES_key = none →
      getStructuredField fields PROGRAM_CALL_FLOW_key REFINED_PROGRAM_CALL_FLOW_key = none →
      (updateSystemDesign env st f).2 =
        .ok { filename := f, content := env.backendNew prd.content } ∧
      (updateSystemDesign env st f).1.saved =
        (f, env.backendNew prd.content, [prd.root_relative_path]) :: st.saved) ∧
    (∀ (env : DesignEnv) (st : DesignState) (f : String) (prd : Document) (e : String),
      env.prdStore f = some prd → getDesign env st f = none →
      jsonLoads (env.backendNew prd.content) = .error e →
      (updateSystemDesign env st f).2 = .error e ∧
      (updateSystemDesign env st f).1.saved =
        (f, env.backendNew prd.content, [prd.root_relative_path]) :: st.saved) := by
  constructor
  · intro env st f prd fields hprd hnew hparse hd1 hd2
    simp only [updateSystemDesign, hprd, hnew, saveDataApiDesign, saveSeqFlow, saveDesign,
      hparse, hd1, hd2]
    constructor <;> trivial
  · intro env st f prd e hprd hnew hparse
    simp only [updateSystemDesign, hprd, hnew, saveDataApiDesign, saveDesign, hparse]
    constructor <;> trivial

/-- Environment of the C3 amended witness: the backend produces a parseable
design payload without structured diagram fields. -/
def envC3ok : DesignEnv where
  prdStore := fun f => if f = "d.md" then some prdDocC3 else none
  designStore := fun _ => none
  backendNew := fun _ => "\x7b\"Implementation approach\": \"simple\"\x7d"
  backendRefine := fun _ => "REFINE"
  prdWorkdir := "/ws/docs/prd"
  workdir := "/ws"

/-- Witness theorem for C3's amended claim: the completing run at a parseable
payload without diagram fields, and the aborting run at unparseable content,
both at concrete inputs. -/
theorem malformed_payload_propagates_after_save_witness :
    (updateSystemDesign envC3ok {} "d.md").2 =
      .ok { filename := "d.md",
            content := "\x7b\"Implementation approach\": \"simple\"\x7d" } ∧
    (updateSystemDesign envC3 {} "d.md").2 = .error "json.decoder.JSONDecodeError" ∧
    (updateSystemDesign envC3 {} "d.md").1.saved =
      [("d.md", "not a json document", ["docs/prd/d.md"])] := by
  have h1 := malformed_payload_propagates_after_save.1 envC3ok {} "d.md" prdDocC3
    [("Implementation approach", JVal.jstr "simple")] rfl rfl rfl rfl rfl
  have h2 := malformed_payload_propagates_after_save.2 envC3 {} "d.md" prdDocC3
    "json.decoder.JSONDecodeError" rfl rfl rfl
  exact ⟨h1.1, h2.1, h2.2⟩

theorem lookup_append_of_isSome {α β : Type} [BEq α] (l1 l2 : List (α × β)) (a : α)
    (h : (l1.lookup a).isSome = true) : (l1 ++ l2).lookup a = l1.lookup a := by
  induction l1 with
  | nil => simp at h
  | cons x l1 ih =>
    obtain ⟨k, b⟩ := x
    rw [List.lookup_cons] at h
    rw [List.cons_append, List.lookup_cons, List.lookup_cons]
    cases hk : a == k
    · simp only [hk] at h ⊢
      exact ih h
    · simp only [hk]

theorem lookup_append_of_none {α β : Type} [BEq α] (l1 l2 : List (α × β)) (a : α)
    (h : l1.lookup a = none) : (l1 ++ l2).lookup a = l2.lookup a := by
  induction l1 with
  | nil => simp
  | cons x l1 ih =>
    obtain ⟨k, b⟩ := x
    rw [List.lookup_cons] at h
    rw [List.cons_append, List.lookup_cons]
    cases hk : a == k
    · simp only [hk] at h ⊢
      exact ih h
    · simp only [hk] at h
      exact Option.noConfusion h

theorem addDir_files (fs : FileSystem) (p : FsPath) : (addDir fs p).files = fs.files := by
  unfold addDir
  split <;> rfl

theorem foldl_addDir_files (l : List FsPath) :
    ∀ fs : FileSystem, (l.foldl addDir fs).files = fs.files := by
  induction l with
  | nil => intro fs; rfl
  | cons p l ih => intro fs; rw [List.foldl_cons, ih, addDir_files]

theorem mkdirParents_files (fs : FileSystem) (p : FsPath) :
    (mkdirParents fs p).files = fs.files :=
  foldl_addDir_files _ fs

theorem mem_addDir_self (fs : FileSystem) (p : FsPath) : p ∈ (addDir fs p).dirs := by
  unfold addDir
  split
  · assumption
  · simp

theorem mem_addDir_mono (fs : FileSystem) (p q : FsPath) (h : q ∈ fs.dirs) :
    q ∈ (addDir fs p).dirs := by
  unfold addDir
  split
  · exact h
  · simp [h]

theorem mem_foldl_addDir_mono (l : List FsPath) :
    ∀ (fs : FileSystem) (q : FsPath), q ∈ fs.dirs → q ∈ (l.foldl addDir fs).dirs := by
  induction l with
  | nil => intro fs q h; exact h
  | cons p l ih =>
    intro fs q h
    rw [List.foldl_cons]
    exact ih _ _ (mem_addDir_mono fs p q h)

theorem mem_foldl_addDir_self (l : List FsPath) :
    ∀ (fs : FileSystem) (q : FsPath), q ∈ l → q ∈ (l.foldl addDir fs).dirs := by
  induction l with
  | nil => intro fs q h; exact absurd h (List.not_mem_nil q)
  | cons p l ih =>
    intro fs q h
    rw [List.foldl_cons]
    rcases List.mem_cons.1 h with h1 | h2
    · subst h1
      exact mem_foldl_addDir_mono l _ q (mem_addDir_self fs q)
    · exact ih _ _ h2

theorem mkdirParents_mem (fs : FileSystem) (p q : FsPath) (h : q ∈ pathPrefixes p) :
    q ∈ (mkdirParents fs p).dirs :=
  mem_foldl_addDir_self _ fs q h

theorem mkdirParents_mono (fs : FileSystem) (p q : FsPath) (h : q ∈ fs.dirs) :
    q ∈ (mkdirParents fs p).dirs :=
  mem_foldl_addDir_mono _ fs q h

theorem addDir_of_mem (fs : FileSystem) (p : FsPath) (h : p ∈ fs.dirs) : addDir fs p = fs := by
  unfold addDir
  simp [h]

theorem foldl_addDir_of_all_mem (l : List FsPath) :
    ∀ fs : FileSystem, (∀ q ∈ l, q ∈ fs.dirs) → l.foldl addDir fs = fs := by
  induction l with
  | nil => intro fs _; rfl
  | cons p l ih =>
    intro fs h
    rw [List.foldl_cons, addDir_of_mem fs p (h p (List.mem_cons_self p l)),
      ih fs (fun q hq => h q (List.mem_cons_of_mem p hq))]

theorem mkdirParents_of_all_mem (fs : FileSystem) (p : FsPath)
    (h : ∀ q ∈ pathPrefixes p, q ∈ fs.dirs) : mkdirParents fs p = fs :=
  foldl_addDir_of_all_mem _ fs h

theorem foldl_addDir_dirs_sub (l : List FsPath) :
    ∀ (fs : FileSystem) (d : FsPath), d ∈ (l.foldl addDir fs).dirs → d ∈ fs.dirs ∨ d ∈ l := by
  induction l with
  | nil => intro fs d h; exact Or.inl h
  | cons p l ih =>
    intro fs d h
    rw [List.foldl_cons] at h
    rcases ih _ d h with h1 | h2
    · by_cases hp : p ∈ fs.dirs
      · rw [addDir_of_mem fs p hp] at h1
        exact Or.inl h1
      · have hd : (addDir fs p).dirs = fs.dirs ++ [p] := by
          unfold addDir
          rw [if_neg hp]
        rw [hd] at h1
        rcases List.mem_append.1 h1 with ha | hb
        · exact Or.inl ha
        · cases List.mem_singleton.1 hb
          exact Or.inr (List.mem_cons_self p l)
    · exact Or.inr (List.mem_cons_of_mem p h2)

theorem mkdirParents_dirs_sub (fs : FileSystem) (p : FsPath) (d : FsPath)
    (h : d ∈ (mkdirParents fs p).dirs) : d ∈ fs.dirs ∨ d ∈ pathPrefixes p :=
  foldl_addDir_dirs_sub _ fs d h

theorem pathPrefixes_append (l1 l2 : List String) (q : FsPath)
    (h : q ∈ pathPrefixes l1) : q ∈ pathPrefixes (l1 ++ l2) := by
  induction l1 generalizing q with
  | nil => exact absurd h (List.not_mem_nil q)
  | cons s l1 ih =>
    rw [List.cons_append]
    unfold pathPrefixes at h ⊢
    rcases List.mem_cons.1 h with h1 | h2
    · subst h1
      exact List.mem_cons_self _ _
    · rcases List.mem_map.1 h2 with ⟨q', hq', rfl⟩
      exact List.mem_cons_of_mem _ (List.mem_map_of_mem _ (ih q' hq'))

theorem ensureOneFile_preserves_lookup (pd : FsPath) (fs1 : FileSystem) (a : List FsPath)
    (e : String × String) (p : FsPath) (c : String)
    (h : fs1.files.lookup p = some c) :
    ((ensureOneFile pd (fs1, a)) e).1.files.lookup p = some c := by
  simp only [ensureOneFile]
  have hfiles : (mkdirParents fs1 (pd ++ pathParts e.1).dropLast).files = fs1.files :=
    mkdirParents_files _ _
  by_cases hg :
      ((mkdirParents fs1 (pd ++ pathParts e.1).dropLast).files.lookup
        (pd ++ pathParts e.1)).isSome = true
  · rw [if_pos hg, hfiles]
    exact h
  · rw [if_neg hg]
    have hsome : ((mkdirParents fs1 (pd ++ pathParts e.1).dropLast).files.lookup p).isSome =
        true := by
      rw [hfiles, h]
      rfl
    calc ((mkdirParents fs1 (pd ++ pathParts e.1).dropLast).files ++
            [(pd ++ pathParts e.1, e.2)]).lookup p
        = (mkdirParents fs1 (pd ++ pathParts e.1).dropLast).files.lookup p :=
          lookup_append_of_isSome _ _ p hsome
      _ = some c := by rw [hfiles, h]

theorem ensureOneFile_lookup_isSome (pd : FsPath) (fs1 : FileSystem) (a : List FsPath)
    (e : String × String) :
    (((ensureOneFile pd (fs1, a)) e).1.files.lookup (pd ++ pathParts e.1)).isSome = true := by
  simp only [ensureOneFile]
  by_cases hg :
      ((mkdirParents fs1 (pd ++ pathParts e.1).dropLast).files.lookup
        (pd ++ pathParts e.1)).isSome = true
  · rw [if_pos hg]
    exact hg
  · rw [if_neg hg]
    have hnone : (mkdirParents fs1 (pd ++ pathParts e.1).dropLast).files.lookup
        (pd ++ pathParts e.1) = none := by
      cases hx : (mkdirParents fs1 (pd ++ pathParts e.1).dropLast).files.lookup
          (pd ++ pathParts e.1) with
      | none => rfl
      | some v => rw [hx] at hg; exact absurd rfl hg
    rw [lookup_append_of_none _ _ _ hnone]
    simp

theorem ensureOneFile_dirs_mono (pd : FsPath) (fs1 : FileSystem) (a : List FsPath)
    (e : String × String) (q : FsPath) (h : q ∈ fs1.dirs) :
    q ∈ ((ensureOneFile pd (fs1, a)) e).1.dirs := by
  simp only [ensureOneFile]
  have hq : q ∈ (mkdirParents fs1 (pd ++ pathParts e.1).dropLast).dirs :=
    mkdirParents_mono _ _ _ h
  by_cases hg :
      ((mkdirParents fs1 (pd ++ pathParts e.1).dropLast).files.lookup
        (pd ++ pathParts e.1)).isSome = true
  · rw [if_pos hg]
    exact hq
  · rw [if_neg hg]
    exact hq

theorem ensureOneFile_parent_dirs (pd : FsPath) (fs1 : FileSystem) (a : List FsPath)
    (e : String × String) (q : FsPath)
    (hq : q ∈ pathPrefixes ((pd ++ pathParts e.1).dropLast)) :
    q ∈ ((ensureOneFile pd (fs1, a)) e).1.dirs := by
  simp only [ensureOneFile]
  have hmem : q ∈ (mkdirParents fs1 (pd ++ pathParts e.1).dropLast).dirs :=
    mkdirParents_mem _ _ _ hq
  by_cases hg :
      ((mkdirParents fs1 (pd ++ pathParts e.1).dropLast).files.lookup
        (pd ++ pathParts e.1)).isSome = true
  · rw [if_pos hg]
    exact hmem
  · rw [if_neg hg]
    exact hmem

theorem ensureOneFile_noop (pd : FsPath) (fs1 : FileSystem) (a : List FsPath)
    (e : String × String)
    (hdirs : ∀ q ∈ pathPrefixes ((pd ++ pathParts e.1).dropLast), q ∈ fs1.dirs)
    (hfile : (fs1.files.lookup (pd ++ pathParts e.1)).isSome = true) :
    (ensureOneFile pd (fs1, a)) e = (fs1, a) := by
  simp only [ensureOneFile]
  rw [mkdirParents_of_all_mem fs1 _ hdirs, if_pos hfile]

theorem ensureCriticalFiles_inactive (cc : CodingContext) (fs : FileSystem)
    (h : ∀ cd, cc.code_doc = some cd → cd.root_relative_path = "") :
    ensureCriticalFiles cc fs = (fs, []) := by
  cases hcd : cc.code_doc with
  | none => simp [ensureCriticalFiles, hcd]
  | some cd =>
    have hrel := h cd hcd
    simp [ensureCriticalFiles, hcd, hrel]

theorem ensureCriticalFiles_active (cc : CodingContext) (fs : FileSystem) (cd : Document)
    (hcd : cc.code_doc = some cd) (hrel : ¬ cd.root_relative_path = "") :
    ∃ (fs1 : FileSystem) (pd : FsPath),
      ensureCriticalFiles cc fs =
        (ensureOneFile pd (fs1, [])) ("package.json", PACKAGE_JSON_DEFAULT) ∧
      fs1.files = fs.files ∧
      (∀ q, q ∈ fs.dirs → q ∈ fs1.dirs) ∧
      (∀ fs2 : FileSystem, (∀ q, q ∈ fs1.dirs → q ∈ fs2.dirs) →
        ensureCriticalFiles cc fs2 =
          (ensureOneFile pd (fs2, [])) ("package.json", PACKAGE_JSON_DEFAULT)) := by
  rcases hparts : pathParts cc.filename with _ | ⟨p0, rest⟩
  · refine ⟨fs, pathParts cd.root_path, ?_, rfl, fun q h => h, ?_⟩
    · simp only [ensureCriticalFiles, hcd, if_neg hrel, hparts, criticalFiles,
        List.foldl_cons, List.foldl_nil]
    · intro fs2 _
      simp only [ensureCriticalFiles, hcd, if_neg hrel, hparts, criticalFiles,
        List.foldl_cons, List.foldl_nil]
  · by_cases hwk : p0 ∈ WELL_KNOWN_FIRST_PARTS
    · refine ⟨fs, pathParts cd.root_path, ?_, rfl, fun q h => h, ?_⟩
      · simp only [ensureCriticalFiles, hcd, if_neg hrel, hparts, if_pos hwk, criticalFiles,
          List.foldl_cons, List.foldl_nil]
      · intro fs2 _
        simp only [ensureCriticalFiles, hcd, if_neg hrel, hparts, if_pos hwk, criticalFiles,
          List.foldl_cons, List.foldl_nil]
    · refine ⟨mkdirParents
          (mkdirParents fs ((pathParts cd.root_path ++ [p0]) ++ ["frontend"]))
          ((pathParts cd.root_path ++ [p0]) ++ ["backend"]),
        pathParts cd.root_path ++ [p0], ?_, ?_, ?_, ?_⟩
      · simp only [ensureCriticalFiles, hcd, if_neg hrel, hparts, if_neg hwk, criticalFiles,
          List.foldl_cons, List.foldl_nil]
      · rw [mkdirParents_files, mkdirParents_files]
      · intro q h
        exact mkdirParents_mono _ _ _ (mkdirParents_mono _ _ _ h)
      · intro fs2 hsub
        have h1 : mkdirParents fs2 ((pathParts cd.root_path ++ [p0]) ++ ["frontend"]) = fs2 :=
          mkdirParents_of_all_mem _ _ (fun q hq =>
            hsub q (mkdirParents_mono _ _ _ (mkdirParents_mem _ _ _ hq)))
        have h2 : mkdirParents fs2 ((pathParts cd.root_path ++ [p0]) ++ ["backend"]) = fs2 :=
          mkdirParents_of_all_mem _ _ (fun q hq => hsub q (mkdirParents_mem _ _ _ hq))
        simp only [ensureCriticalFiles, hcd, if_neg hrel, hparts, if_neg hwk, criticalFiles,
          List.foldl_cons, List.foldl_nil, h1, h2]

/-- C8: the critical-file ensurer never overwrites an existing file — every
path that already holds content keeps exactly that content — and it is
idempotent: calling it again on the state produced by a first call returns
that state unchanged together with an empty created-files set. -/
theorem ensurer_never_overwrites_and_idempotent :
    (∀ (cc : CodingContext) (fs : FileSystem) (p : FsPath) (c : String),
      fs.files.lookup p = some c →
      ((ensureCriticalFiles cc fs).1).files.lookup p = some c) ∧
    (∀ (cc : CodingContext) (fs : FileSystem),
      ensureCriticalFiles cc (ensureCriticalFiles cc fs).1 =
        ((ensureCriticalFiles cc fs).1, [])) := by
  constructor
  · intro cc fs p c h
    cases hcd : cc.code_doc with
    | none =>
      rw [ensureCriticalFiles_inactive cc fs
        (fun cd hcd2 => by rw [hcd] at hcd2; cases hcd2)]
      exact h
    | some cd =>
      by_cases hrel : cd.root_relative_path = ""
      · rw [ensureCriticalFiles_inactive cc fs
          (fun cd2 hcd2 => by rw [hcd] at hcd2; cases hcd2; exact hrel)]
        exact h
      · obtain ⟨fs1, pd, heq, hfiles, hmono, hsecond⟩ :=
          ensureCriticalFiles_active cc fs cd hcd hrel
        rw [heq]
        exact ensureOneFile_preserves_lookup pd fs1 [] _ p c (by rw [hfiles]; exact h)
  · intro cc fs
    cases hcd : cc.code_doc with
    | none =>
      have hin : ∀ cd, cc.code_doc = some cd → cd.root_relative_path = "" :=
        fun cd hcd2 => by rw [hcd] at hcd2; cases hcd2
      rw [ensureCriticalFiles_inactive cc fs hin, ensureCriticalFiles_inactive cc fs hin]
    | some cd =>
      by_cases hrel : cd.root_relative_path = ""
      · have hin : ∀ cd2, cc.code_doc = some cd2 → cd2.root_relative_path = "" :=
          fun cd2 hcd2 => by rw [hcd] at hcd2; cases hcd2; exact hrel
        rw [ensureCriticalFiles_inactive cc fs hin, ensureCriticalFiles_inactive cc fs hin]
      · obtain ⟨fs1, pd, heq, hfiles, hmono, hsecond⟩ :=
          ensureCriticalFiles_active cc fs cd hcd hrel
        rw [heq]
        have hdirs1 : ∀ q, q ∈ fs1.dirs →
            q ∈ ((ensureOneFile pd (fs1, [])) ("package.json", PACKAGE_JSON_DEFAULT)).1.dirs :=
          fun q hq => ensureOneFile_dirs_mono pd fs1 [] _ q hq
        rw [hsecond _ hdirs1]
        exact ensureOneFile_noop pd _ [] _
          (fun q hq => ensureOneFile_parent_dirs pd fs1 [] _ q hq)
          (ensureOneFile_lookup_isSome pd fs1 [] _)

theorem self_mem_pathPrefixes (p : FsPath) (h : p ≠ []) : p ∈ pathPrefixes p := by
  induction p with
  | nil => exact absurd rfl h
  | cons s rest ih =>
    unfold pathPrefixes
    rcases hr : rest with _ | ⟨x, xs⟩
    · simp
    · rw [← hr]
      have hrest : rest ≠ [] := by rw [hr]; exact List.cons_ne_nil x xs
      exact List.mem_cons_of_mem _ (List.mem_map_of_mem _ (ih hrest))

theorem ensureOneFile_dirs_eq (pd : FsPath) (fs1 : FileSystem) (a : List FsPath)
    (e : String × String) :
    ((ensureOneFile pd (fs1, a)) e).1.dirs =
      (mkdirParents fs1 (pd ++ pathParts e.1).dropLast).dirs := by
  simp only [ensureOneFile]
  by_cases hg :
      ((mkdirParents fs1 (pd ++ pathParts e.1).dropLast).files.lookup
        (pd ++ pathParts e.1)).isSome = true
  · rw [if_pos hg]
  · rw [if_neg hg]

theorem ensureOneFile_creates (pd : FsPath) (fs1 : FileSystem) (a : List FsPath)
    (e : String × String)
    (hnone : fs1.files.lookup (pd ++ pathParts e.1) = none) :
    ((ensureOneFile pd (fs1, a)) e).2 = a ++ [pd ++ pathParts e.1] ∧
    ((ensureOneFile pd (fs1, a)) e).1.files.lookup (pd ++ pathParts e.1) = some e.2 := by
  simp only [ensureOneFile]
  have hfiles := mkdirParents_files fs1 (pd ++ pathParts e.1).dropLast
  have hg : ¬ ((mkdirParents fs1 (pd ++ pathParts e.1).dropLast).files.lookup
      (pd ++ pathParts e.1)).isSome = true := by
    rw [hfiles, hnone]
    exact fun hx => Bool.noConfusion hx
  rw [if_neg hg]
  refine ⟨rfl, ?_⟩
  rw [lookup_append_of_none _ _ _ (by rw [hfiles]; exact hnone)]
  simp

/-- C9: project-root inference of the critical-file ensurer.  When the first
segment of the target filename is not one of `frontend`, `backend`,
`package.json`, that segment names the project directory under the workspace:
both sub-area directories are created under it, and the manifest is written
at that project root when absent.  When the first segment is well-known, the
project root is the workspace root: the manifest goes directly under the
workspace and the step creates no directory other than ancestors of the
workspace path itself — in particular no sub-area directories. -/
theorem ensurer_project_root_inference :
    (∀ (cc : CodingContext) (fs : FileSystem) (cd : Document) (p0 : String)
      (rest : List String),
      cc.code_doc = some cd → ¬ cd.root_relative_path = "" →
      pathParts cc.filename = p0 :: rest → p0 ∉ WELL_KNOWN_FIRST_PARTS →
      ((pathParts cd.root_path ++ [p0]) ++ ["frontend"]) ∈
        ((ensureCriticalFiles cc fs).1).dirs ∧
      ((pathParts cd.root_path ++ [p0]) ++ ["backend"]) ∈
        ((ensureCriticalFiles cc fs).1).dirs ∧
      (fs.files.lookup ((pathParts cd.root_path ++ [p0]) ++ ["package.json"]) = none →
        (ensureCriticalFiles cc fs).2 =
          [(pathParts cd.root_path ++ [p0]) ++ ["package.json"]] ∧
        ((ensureCriticalFiles cc fs).1).files.lookup
          ((pathParts cd.root_path ++ [p0]) ++ ["package.json"]) =
            some PACKAGE_JSON_DEFAULT)) ∧
    (∀ (cc : CodingContext) (fs : FileSystem) (cd : Document) (p0 : String)
      (rest : List String),
      cc.code_doc = some cd → ¬ cd.root_relative_path = "" →
      pathParts cc.filename = p0 :: rest → p0 ∈ WELL_KNOWN_FIRST_PARTS →
      (∀ d ∈ ((ensureCriticalFiles cc fs).1).dirs,
        d ∈ fs.dirs ∨ d ∈ pathPrefixes (pathParts cd.root_path)) ∧
      (fs.files.lookup (pathParts cd.root_path ++ ["package.json"]) = none →
        (ensureCriticalFiles cc fs).2 = [pathParts cd.root_path ++ ["package.json"]] ∧
        ((ensureCriticalFiles cc fs).1).files.lookup
          (pathParts cd.root_path ++ ["package.json"]) = some PACKAGE_JSON_DEFAULT)) := by
  constructor
  · intro cc fs cd p0 rest hcd hrel hparts hwk
    have heq : ensureCriticalFiles cc fs =
        (ensureOneFile (pathParts cd.root_path ++ [p0])
          (mkdirParents
            (mkdirParents fs ((pathParts cd.root_path ++ [p0]) ++ ["frontend"]))
            ((pathParts cd.root_path ++ [p0]) ++ ["backend"]), []))
          ("package.json", PACKAGE_JSON_DEFAULT) := by
      simp only [ensureCriticalFiles, hcd, if_neg hrel, hparts, if_neg hwk, criticalFiles,
        List.foldl_cons, List.foldl_nil]
    rw [heq]
    refine ⟨?_, ?_, ?_⟩
    · exact ensureOneFile_dirs_mono _ _ _ _ _
        (mkdirParents_mono _ _ _
          (mkdirParents_mem _ _ _ (self_mem_pathPrefixes _ (by simp))))
    · exact ensureOneFile_dirs_mono _ _ _ _ _
        (mkdirParents_mem _ _ _ (self_mem_pathPrefixes _ (by simp)))
    · intro hnone
      have hnone2 : (mkdirParents
          (mkdirParents fs ((pathParts cd.root_path ++ [p0]) ++ ["frontend"]))
          ((pathParts cd.root_path ++ [p0]) ++ ["backend"])).files.lookup
            ((pathParts cd.root_path ++ [p0]) ++ pathParts "package.json") = none := by
        rw [mkdirParents_files, mkdirParents_files]
        exact hnone
      have hres := ensureOneFile_creates (pathParts cd.root_path ++ [p0]) _ []
        ("package.json", PACKAGE_JSON_DEFAULT) hnone2
      exact ⟨by simpa using hres.1, hres.2⟩
  · intro cc fs cd p0 rest hcd hrel hparts hwk
    have heq : ensureCriticalFiles cc fs =
        (ensureOneFile (pathParts cd.root_path) (fs, []))
          ("package.json", PACKAGE_JSON_DEFAULT) := by
      simp only [ensureCriticalFiles, hcd, if_neg hrel, hparts, if_pos hwk, criticalFiles,
        List.foldl_cons, List.foldl_nil]
    rw [heq]
    have hdrop : (pathParts cd.root_path ++ pathParts "package.json").dropLast =
        pathParts cd.root_path := by
      rw [show pathParts "package.json" = ["package.json"] from rfl]
      simp
    constructor
    · intro d hd
      rw [ensureOneFile_dirs_eq] at hd
      rcases mkdirParents_dirs_sub fs _ d hd with h1 | h2
      · exact Or.inl h1
      · rw [hdrop] at h2
        exact Or.inr h2
    · intro hnone
      have hres := ensureOneFile_creates (pathParts cd.root_path) fs []
        ("package.json", PACKAGE_JSON_DEFAULT) hnone
      exact ⟨by simpa using hres.1, hres.2⟩

/-- Code document of the C9 witness for the project-name scenario. -/
def codeDocW9a : Document where
  filename := "myapp/backend/server.js"
  root_path := "workspace"
  root_relative_path := "workspace/myapp/backend/server.js"

/-- Coding context of the C9 witness for target `myapp/backend/server.js`. -/
def ccW9a : CodingContext where
  filename := "myapp/backend/server.js"
  code_doc := some codeDocW9a

/-- Code document of the C9 witness for the bare `package.json` scenario. -/
def codeDocW9b : Document where
  filename := "package.json"
  root_path := "workspace"
  root_relative_path := "workspace/package.json"

/-- Coding context of the C9 witness for target `package.json`. -/
def ccW9b : CodingContext where
  filename := "package.json"
  code_doc := some codeDocW9b

/-- Witness theorem for C9 at both scenario inputs of the spec: project root
`workspace/myapp` (sub-areas created, manifest there) versus the workspace
root (manifest there, only workspace-ancestor directories created). -/
theorem ensurer_project_root_inference_witness :
    ["workspace", "myapp", "frontend"] ∈ ((ensureCriticalFiles ccW9a {}).1).dirs ∧
    ["workspace", "myapp", "backend"] ∈ ((ensureCriticalFiles ccW9a {}).1).dirs ∧
    (ensureCriticalFiles ccW9a {}).2 = [["workspace", "myapp", "package.json"]] ∧
    (ensureCriticalFiles ccW9b {}).2 = [["workspace", "package.json"]] ∧
    (∀ d ∈ ((ensureCriticalFiles ccW9b {}).1).dirs,
      d ∈ ({} : FileSystem).dirs ∨ d ∈ pathPrefixes ["workspace"]) := by
  have ha := ensurer_project_root_inference.1 ccW9a {} codeDocW9a "myapp"
    ["backend", "server.js"] rfl (by decide) rfl (by decide)
  have hb := ensurer_project_root_inference.2 ccW9b {} codeDocW9b "package.json" []
    rfl (by decide) rfl (by decide)
  exact ⟨ha.1, ha.2.1, (ha.2.2 rfl).1, (hb.2 rfl).1, hb.1⟩

/-- Workspace code document of the C8 witness. -/
def codeDocW8 : Document where
  filename := "myapp/backend/server.js"
  root_path := "workspace"
  root_relative_path := "workspace/myapp/backend/server.js"

/-- Coding context of the C8 witness. -/
def ccW8 : CodingContext where
  filename := "myapp/backend/server.js"
  code_doc := some codeDocW8

/-- Pre-existing filesystem of the C8 witness: the manifest already exists
with custom content. -/
def fsW8 : FileSystem where
  files := [(["workspace", "myapp", "package.json"], "existing manifest")]
  dirs := []

/-- Witness theorem for C8 at a concrete target: the existing manifest's
content survives the call, and a second call is a no-op with an empty
created-files set. -/
theorem ensurer_never_overwrites_and_idempotent_witness :
    ((ensureCriticalFiles ccW8 fsW8).1).files.lookup
      ["workspace", "myapp", "package.json"] = some "existing manifest" ∧
    ensureCriticalFiles ccW8 (ensureCriticalFiles ccW8 fsW8).1 =
      ((ensureCriticalFiles ccW8 fsW8).1, []) :=
  ⟨ensurer_never_overwrites_and_idempotent.1 ccW8 fsW8
      ["workspace", "myapp", "package.json"] "existing manifest" rfl,
    ensurer_never_overwrites_and_idempotent.2 ccW8 fsW8⟩

end AttriOS
